import Mathlib

/-!
# extDB dispatcher and result store (`src/ext.cpp`)

A shallow embedding of `Ext::getResult_mutexlock`, `Ext::saveResult_mutexlock`,
`Ext::addProtocol`, `Ext::connectDatabase`, `Ext::syncCallProtocol`,
`Ext::onewayCallProtocol`, `Ext::asyncCallProtocol` and `Ext::callExtenion`.

Conventions:
* a `std::string` is a list of bytes (`Str`); it may contain the NUL byte;
* what `std::strcpy(output, s.c_str())` leaves in the output buffer, read as a C
  string, is `s` up to its first NUL byte (`strcpy`);
* the `int` expression `output_size-9` meets `std::string::size_type` in
  `substr` and in the length comparisons, where it is converted modulo `2^64`
  (`toSizeT`);
* each mutex-protected member function is one atomic step on the state `Ext`.
-/

namespace ExtDB

/-- Bytes of a `std::string`. -/
abbrev Str := List Char

/-- The terminator byte of a C string. -/
def NUL : Char := Char.ofNat 0

/-- Content of the output buffer, read as a C string, after
`std::strcpy(output, src.c_str())`: the bytes of `src` before its first NUL. -/
def strcpy (src : Str) : Str := src.takeWhile (fun c => c != NUL)

/-- Largest value of a C `int`. -/
def INT_MAX : Int := 2147483647

/-- Conversion of an `int` to the unsigned `std::string::size_type` (64 bit). -/
def toSizeT (i : Int) : Nat := (i % 18446744073709551616).toNat

/-- The call `s.substr(pos, n)` for `pos ≤ s.length`. -/
def substr (s : Str) (pos : Nat) (n : Nat) : Str := (s.drop pos).take n

/-- The call `s.substr(pos)` for `pos ≤ s.length`. -/
def substrFrom (s : Str) (pos : Nat) : Str := s.drop pos

/-- Index of the first occurrence of `c` in `s`, if any. -/
def findIdx (c : Char) : Str → Option Nat
  | [] => none
  | x :: xs => if x = c then some 0 else (findIdx c xs).map (fun i => i + 1)

/-- The call `s.find(c, pos)`: first index `≥ pos` holding `c`; `none` is `npos`. -/
def find (s : Str) (c : Char) (pos : Nat) : Option Nat :=
  (findIdx c (s.drop pos)).map (fun i => i + pos)

/-- Decimal digit `d < 10` as a character. -/
def digitChar (d : Nat) : Char := Char.ofNat (48 + d)

/-- Decimal digits of `n`, most significant first, prepended to `acc`. -/
def natDigits : Nat → Nat → Str → Str
  | 0, _, acc => acc
  | fuel + 1, n, acc =>
    if n < 10 then digitChar n :: acc
    else natDigits fuel (n / 10) (digitChar (n % 10) :: acc)

/-- Decimal text of an `int`, as `Poco::NumberFormatter::format(int)` prints it. -/
def format (i : Int) : Str :=
  if i < 0 then '-' :: natDigits (i.natAbs + 1) i.natAbs []
  else natDigits (i.natAbs + 1) i.natAbs []

/-- ASCII case-insensitive equality, as `boost::iequals`. -/
def iequals (a b : Str) : Bool := a.map Char.toUpper == b.map Char.toUpper

/-! ## Id allocator -/

/-- Modelled from the spec: `uniqueid.h` (class `IdManager`) is not among the
sources. Spec §4.1: a dense pool of integers in `[0, ∞)`; `allocate()` returns
the smallest currently-free id; `free(id)` returns it to the free set. The
state is the list of ids that are currently allocated. -/
structure IdManager where
  used : List Nat

/-- Smallest natural number that is not in `used`. -/
def firstFree (used : List Nat) : Nat :=
  ((List.range (used.length + 1)).find? (fun n => decide (n ∉ used))).getD used.length

/-- Modelled from the spec: `IdManager::AllocateId` returns the smallest
currently-free id and marks it allocated. -/
def IdManager.AllocateId (m : IdManager) : Nat × IdManager :=
  (firstFree m.used, { used := firstFree m.used :: m.used })

/-- Modelled from the spec: `IdManager::FreeId` returns the id to the free set
(a no-op on an id that is not allocated). -/
def IdManager.FreeId (m : IdManager) (id : Int) : IdManager :=
  { used := m.used.filter (fun n => decide ((n : Int) ≠ id)) }

/-! ## Extension state -/

/-- The eleven protocol classes `addProtocol` can construct. -/
inductive ProtocolKind
  | MISC | DB_BASIC | DB_BASIC_V2 | DB_PROCEDURE | DB_PROCEDURE_V2 | DB_RAW | DB_RAW_V2
  | DB_RAW_NO_EXTRA_QUOTES | DB_RAW_NO_EXTRA_QUOTES_V2 | DB_CUSTOM_V2 | LOG
  deriving DecidableEq, Repr

/-- A constructed protocol object: its class and the data it was initialised with. -/
structure Protocol where
  kind : ProtocolKind
  init_data : Str
  deriving DecidableEq

/-- A job posted to `io_service`. -/
inductive Task
  | oneway (protocol data : Str)
  | async (protocol data : Str) (unique_id : Int)
  deriving DecidableEq

/-- Member `db_conn_info`. -/
structure DBConnectionInfo where
  db_type : Str
  connection_str : Str
  min_sessions : Int
  max_sessions : Int
  idle_time : Int
  deriving DecidableEq

/-- Arguments the session pool `db_pool` was built with. -/
structure DBPool where
  db_type : Str
  connection_str : Str
  min_sessions : Int
  max_sessions : Int
  idle_time : Int
  deriving DecidableEq

/-- Members of `Ext` that the dispatcher reads or writes. -/
structure Ext where
  mgr : IdManager
  extDB_lock : Bool
  unordered_map_results : Int → Option Str
  unordered_map_wait : Int → Option Bool
  unordered_map_protocol : Str → Option Protocol
  io_service : List Task
  db_conn_info : DBConnectionInfo
  db_pool : Option DBPool
  max_threads : Int
  steam_api_key : Str
  pConf : Str → Option Str

/-- Library and collaborator behaviour the dispatcher depends on but that is
not part of `ext.cpp`. -/
structure Env where
  /-- Value of `Poco::NumberParser::parse`; `none` is the `SyntaxException` it throws. -/
  parse : Str → Option Int
  /-- Tokens of `Poco::StringTokenizer(input_str, ":")`. -/
  tokenize : Str → List Str
  /-- Result of `AbstractProtocol::init(this, init_data)` for a new object of the class. -/
  init : ProtocolKind → Ext → Str → Bool
  /-- String that `AbstractProtocol::callProtocol(this, data, result)` leaves in `result`. -/
  callProtocol : Protocol → Ext → Str → Str
  /-- Whether `db_pool->get().isConnected()` holds for a pool built with these
  arguments; `none` is a `Poco::Exception`. -/
  isConnected : DBPool → Option Bool
  /-- Text of `Poco::Path::toString()` for `extDB/sqlite/<name>`. -/
  sqlitePath : Str → Str

/-! ## Result store -/

/-- The method `Ext::getUniqueID_mutexlock`. The id is a C `int`; the conversion
of the allocator's number is the identity as long as fewer than `2^31` ids are
allocated. -/
def getUniqueID_mutexlock (s : Ext) : Int × Ext :=
  let r := s.mgr.AllocateId
  ((r.1 : Int), { s with mgr := r.2 })

/-- The method `Ext::freeUniqueID_mutexlock`. -/
def freeUniqueID_mutexlock (s : Ext) (unique_id : Int) : Ext :=
  { s with mgr := s.mgr.FreeId unique_id }

/-- The method `Ext::getResult_mutexlock`: the new state and the C string left in `output`. -/
def getResult_mutexlock (s : Ext) (unique_id : Int) (output_size : Int) : Ext × Str :=
  match s.unordered_map_results unique_id with
  | none =>
    if s.unordered_map_wait unique_id = none then (s, strcpy [])
    else (s, strcpy "[3]".toList)
  | some second =>
    if second.isEmpty then
      (freeUniqueID_mutexlock
        { s with unordered_map_results := Function.update s.unordered_map_results unique_id none }
        unique_id, strcpy [])
    else
      let msg := substr second 0 (toSizeT (output_size - 9))
      if second.length > toSizeT (output_size - 9) then
        let rest := substrFrom second (toSizeT (output_size - 9))
        ({ s with
            unordered_map_results := Function.update s.unordered_map_results unique_id (some rest) },
          strcpy msg)
      else
        ({ s with
            unordered_map_results := Function.update s.unordered_map_results unique_id (some []) },
          strcpy msg)

/-- The method `Ext::saveResult_mutexlock`. -/
def saveResult_mutexlock (s : Ext) (result : Str) (unique_id : Int) : Ext :=
  { s with
    unordered_map_results :=
      Function.update s.unordered_map_results unique_id (some ("[1,".toList ++ result ++ "]".toList))
    unordered_map_wait := Function.update s.unordered_map_wait unique_id none }

/-! ## Fixed responses -/

/-- Literal written when the input has at most two bytes. -/
def MSG_TOO_SHORT : Str := "[0,\"Error Invalid Message, (Message to short)\"]".toList

/-- Literal written for an unknown mode and in the `catch` block. -/
def MSG_INVALID_MESSAGE : Str := "[0,\"Error Invalid Message\"]".toList

/-- Literal written when the separator is missing or the token count is unknown. -/
def MSG_INVALID_FORMAT : Str := "[0,\"Error Invalid Format\"]".toList

/-- Literal written when no protocol has the requested name or class. -/
def MSG_UNKNOWN_PROTOCOL : Str := "[0,\"Error Unknown Protocol\"]".toList

/-- Literal written when `init` of a new protocol object returns false. -/
def MSG_FAILED_TO_LOAD : Str := "[0,\"Failed to Load Protocol\"]".toList

/-- Literal written when the session pool does not connect. -/
def MSG_POOL_FAILED : Str := "[0,\"Database Session Pool Failed\"]".toList

/-- Literal written for a database type other than MySQL, ODBC, SQLite. -/
def MSG_UNKNOWN_DB_TYPE : Str := "[0,\"Unknown Database Type\"]".toList

/-- Literal written when the config section has no `Type` key. -/
def MSG_NO_CONFIG_OPTION : Str := "[0,\"No Config Option Found\"]".toList

/-- Literal `[1]`. -/
def MSG_OK : Str := "[1]".toList

/-- Literal `[3]`. -/
def MSG_WAIT : Str := "[3]".toList

/-- The method `Ext::version`. -/
def version : Str := "16".toList

/-- The expression `"[2,\"" + Poco::NumberFormatter::format(unique_id) + "\"]"`. -/
def ticket (unique_id : Int) : Str := "[2,\"".toList ++ format unique_id ++ "\"]".toList

/-! ## Database setup -/

/-- The call `pConf->getString(key)`: `none` is the `NotFoundException`. -/
def getString (s : Ext) (key : Str) : Option Str := s.pConf key

/-- The call `pConf->getString(key, deflt)`. -/
def getStringD (s : Ext) (key : Str) (deflt : Str) : Str := (s.pConf key).getD deflt

/-- The call `pConf->getInt(key)`: `none` is a `NotFoundException` or `SyntaxException`. -/
def getInt (env : Env) (s : Ext) (key : Str) : Option Int := (s.pConf key).bind env.parse

/-- The call `pConf->getInt(key, deflt)`: `none` is a `SyntaxException`. -/
def getIntD (env : Env) (s : Ext) (key : Str) (deflt : Int) : Option Int :=
  match s.pConf key with
  | none => some deflt
  | some v => env.parse v

/-- The pool `new DBPool(db_type, connection_str, min_sessions, max_sessions, idle_time)`. -/
def newDBPool (i : DBConnectionInfo) : DBPool :=
  { db_type := i.db_type, connection_str := i.connection_str, min_sessions := i.min_sessions,
    max_sessions := i.max_sessions, idle_time := i.idle_time }

/-- Tail of `connectDatabase` shared by the two engines: build the pool and report. -/
def startPool (env : Env) (s : Ext) (i : DBConnectionInfo) : Option (Ext × Str) :=
  (env.isConnected (newDBPool i)).map fun ok =>
    ({ s with db_conn_info := i, db_pool := some (newDBPool i) },
      if ok then strcpy MSG_OK else strcpy MSG_POOL_FAILED)

/-- The method `Ext::connectDatabase`; `none` is `std::exit(EXIT_FAILURE)` in its
`catch` block. Logger output is not modelled. -/
def connectDatabase (env : Env) (s : Ext) (_output_size : Int) (conf_option : Str) :
    Option (Ext × Str) :=
  match s.pConf (conf_option ++ ".Type".toList) with
  | none => some (s, strcpy MSG_NO_CONFIG_OPTION)
  | some ty => do
    let i0 : DBConnectionInfo := { s.db_conn_info with db_type := ty }
    let db_name ← getString s (conf_option ++ ".Name".toList)
    let m1 ← getIntD env s (conf_option ++ ".minSessions".toList) 1
    let i1 : DBConnectionInfo := { i0 with min_sessions := if m1 ≤ 0 then 1 else m1 }
    let m2 ← getIntD env s (conf_option ++ ".maxSessions".toList) 1
    let i2 : DBConnectionInfo := { i1 with min_sessions := m2 }
    let i3 : DBConnectionInfo := if i2.max_sessions ≤ 0 then { i2 with max_sessions := s.max_threads } else i2
    let idle ← getInt env s (conf_option ++ ".idleTime".toList)
    let i4 : DBConnectionInfo := { i3 with idle_time := idle }
    if iequals i4.db_type "MySQL".toList || iequals i4.db_type "ODBC".toList then do
      let username ← getString s (conf_option ++ ".Username".toList)
      let password ← getString s (conf_option ++ ".Password".toList)
      let ip ← getString s (conf_option ++ ".IP".toList)
      let port ← getString s (conf_option ++ ".Port".toList)
      let conn := "host=".toList ++ ip ++ ";port=".toList ++ port ++ ";user=".toList ++ username
        ++ ";password=".toList ++ password ++ ";db=".toList ++ db_name
        ++ ";auto-reconnect=true".toList
      let i5 : DBConnectionInfo := { i4 with connection_str := conn }
      if iequals i5.db_type "MySQL".toList then
        let compress := getStringD s (conf_option ++ ".Compress".toList) "false".toList
        let i6 : DBConnectionInfo := { i5 with db_type := "MySQL".toList }
        let i7 : DBConnectionInfo := if iequals compress "true".toList
          then { i6 with connection_str := i6.connection_str ++ "compress=true".toList } else i6
        startPool env s i7
      else
        startPool env s { i5 with db_type := "ODBC".toList }
    else if iequals i4.db_type "SQLite".toList then
      startPool env s { i4 with db_type := "SQLite".toList, connection_str := env.sqlitePath db_name }
    else
      some ({ s with db_conn_info := i4 }, strcpy MSG_UNKNOWN_DB_TYPE)

/-! ## Protocol registry -/

/-- The chain of `boost::iequals` tests of `addProtocol`, in source order. -/
def kindOf (protocol : Str) : Option ProtocolKind :=
  if iequals protocol "MISC".toList then some .MISC
  else if iequals protocol "DB_BASIC".toList then some .DB_BASIC
  else if iequals protocol "DB_BASIC_V2".toList then some .DB_BASIC_V2
  else if iequals protocol "DB_PROCEDURE".toList then some .DB_PROCEDURE
  else if iequals protocol "DB_PROCEDURE_V2".toList then some .DB_PROCEDURE_V2
  else if iequals protocol "DB_RAW".toList then some .DB_RAW
  else if iequals protocol "DB_RAW_V2".toList then some .DB_RAW_V2
  else if iequals protocol "DB_RAW_NO_EXTRA_QUOTES".toList then some .DB_RAW_NO_EXTRA_QUOTES
  else if iequals protocol "DB_RAW_NO_EXTRA_QUOTES_V2".toList then some .DB_RAW_NO_EXTRA_QUOTES_V2
  else if iequals protocol "DB_CUSTOM_V2".toList then some .DB_CUSTOM_V2
  else if iequals protocol "LOG".toList then some .LOG
  else none

/-- The method `Ext::addProtocol`. Its eleven branches have the same body up to
the class constructed (and a logged warning, not modelled): bind the name to the
new object, call `init`, and erase the name again when `init` returns false. -/
def addProtocol (env : Env) (s : Ext) (_output_size : Int)
    (protocol protocol_name init_data : Str) : Ext × Str :=
  match kindOf protocol with
  | some k =>
    let s1 := { s with
      unordered_map_protocol :=
        Function.update s.unordered_map_protocol protocol_name (some ⟨k, init_data⟩) }
    if !env.init k s1 init_data then
      ({ s1 with
          unordered_map_protocol := Function.update s1.unordered_map_protocol protocol_name none },
        strcpy MSG_FAILED_TO_LOAD)
    else
      (s1, strcpy MSG_OK)
  | none => (s, strcpy MSG_UNKNOWN_PROTOCOL)

/-! ## Protocol calls -/

/-- The method `Ext::syncCallProtocol`. -/
def syncCallProtocol (env : Env) (s : Ext) (output_size : Int) (protocol data : Str) :
    Ext × Str :=
  match s.unordered_map_protocol protocol with
  | none => (s, strcpy MSG_UNKNOWN_PROTOCOL)
  | some itr =>
    let result := env.callProtocol itr s data
    if result.length ≤ toSizeT (output_size - 9) then
      (s, strcpy ("[1, ".toList ++ result ++ "]".toList))
    else
      let r := getUniqueID_mutexlock s
      (saveResult_mutexlock r.2 result r.1, strcpy (ticket r.1))

/-- The method `Ext::onewayCallProtocol`: the result string is dropped. -/
def onewayCallProtocol (env : Env) (s : Ext) (protocol data : Str) : Ext :=
  match s.unordered_map_protocol protocol with
  | none => s
  | some itr =>
    let _result := env.callProtocol itr s data
    s

/-- The method `Ext::asyncCallProtocol`. For an unregistered name
`unordered_map_protocol[protocol]` is a null pointer and the call through it has
no defined behaviour: `none`. -/
def asyncCallProtocol (env : Env) (s : Ext) (protocol data : Str) (unique_id : Int) :
    Option Ext :=
  match s.unordered_map_protocol protocol with
  | none => none
  | some h => some (saveResult_mutexlock s (env.callProtocol h s data) unique_id)

/-! ## Dispatcher -/

/-- Block `case 2:` of `callExtenion` once the separator was found. -/
def case_2_found (s : Ext) (protocol data : Str) : Ext × Option Str :=
  let r := getUniqueID_mutexlock s
  match r.2.unordered_map_protocol protocol with
  | none => (r.2, some (strcpy MSG_UNKNOWN_PROTOCOL))
  | some _ =>
    let s2 := { r.2 with
      unordered_map_wait := Function.update r.2.unordered_map_wait r.1 (some true) }
    ({ s2 with io_service := s2.io_service ++ [Task.async protocol data r.1] },
      some (strcpy (ticket r.1)))

/-- Block `case 1:` of `callExtenion` once the separator was found. -/
def case_1_found (s : Ext) (protocol data : Str) : Ext × Option Str :=
  ({ s with io_service := s.io_service ++ [Task.oneway protocol data] }, some (strcpy MSG_OK))

/-- Block `case 0:` of `callExtenion` once the separator was found. -/
def case_0_found (env : Env) (s : Ext) (output_size : Int) (protocol data : Str) :
    Ext × Option Str :=
  let r := syncCallProtocol env s output_size protocol data
  (r.1, some r.2)

/-- Block `case 5:` of `callExtenion`. -/
def case_5 (env : Env) (s : Ext) (output_size : Int) (input_str : Str) : Ext × Option Str :=
  match env.parse (substrFrom input_str 2) with
  | none => (s, some (strcpy MSG_INVALID_MESSAGE))
  | some unique_id =>
    let r := getResult_mutexlock s unique_id output_size
    (r.1, some r.2)

/-- Block `case 9:` of `callExtenion`; `none` is the `std::exit` of `connectDatabase`. -/
def case_9 (env : Env) (s : Ext) (output_size : Int) (input_str : Str) :
    Option (Ext × Option Str) :=
  if !s.extDB_lock then
    match env.tokenize input_str with
    | [_, t1] =>
      if t1 = "VERSION".toList then some (s, some (strcpy version))
      else if t1 = "LOCK".toList then some ({ s with extDB_lock := true }, none)
      else some (s, none)
    | [_, _, t2] =>
      (connectDatabase env s output_size t2).map fun r => (r.1, some r.2)
    | [_, _, t2, t3] =>
      let r := addProtocol env s output_size t2 t3 []
      some (r.1, some r.2)
    | [_, _, t2, t3, t4] =>
      let r := addProtocol env s output_size t2 t3 t4
      some (r.1, some r.2)
    | _ => some (s, some (strcpy MSG_INVALID_FORMAT))
  else some (s, none)

/-- The method `Ext::callExtenion`. The result is the new state and the C string
left in `output` (`none` when no branch writes to it); the outer `none` is
process exit. A `Poco::Exception` (here: a failed `NumberParser::parse`) ends in
the `catch` block. -/
def callExtenion (env : Env) (s : Ext) (output_size : Int) (function : Str) :
    Option (Ext × Option Str) :=
  let input_str := function
  if input_str.length ≤ 2 then
    some (s, some (strcpy MSG_TOO_SHORT))
  else
    match env.parse (substr input_str 0 1) with
    | none => some (s, some (strcpy MSG_INVALID_MESSAGE))
    | some async =>
      if async = 2 then
        match find input_str ':' 2 with
        | none => some (s, some (strcpy MSG_INVALID_FORMAT))
        | some found =>
          some (case_2_found s (substr input_str 2 (found - 2)) (substrFrom input_str (found + 1)))
      else if async = 5 then
        some (case_5 env s output_size input_str)
      else if async = 1 then
        match find input_str ':' 2 with
        | none => some (s, some (strcpy MSG_INVALID_FORMAT))
        | some found =>
          some (case_1_found s (substr input_str 2 (found - 2)) (substrFrom input_str (found + 1)))
      else if async = 0 then
        match find input_str ':' 2 with
        | none => some (s, some (strcpy MSG_INVALID_FORMAT))
        | some found =>
          some (case_0_found env s output_size (substr input_str 2 (found - 2))
            (substrFrom input_str (found + 1)))
      else if async = 9 then
        case_9 env s output_size input_str
      else
        some (s, some (strcpy MSG_INVALID_MESSAGE))

/-- What `callExtenion` does in mode `async ∈ {0, 1, 2}` once the separator was
found, as a function of the protocol name and the data that were split off. -/
def found_branch (env : Env) (s : Ext) (output_size : Int) (async : Int)
    (protocol data : Str) : Ext × Option Str :=
  if async = 2 then case_2_found s protocol data
  else if async = 1 then case_1_found s protocol data
  else case_0_found env s output_size protocol data

/-- The state `s` with the result entry of `unique_id` replaced by `v`. -/
def setResult (s : Ext) (unique_id : Int) (v : Option Str) : Ext :=
  { s with unordered_map_results := Function.update s.unordered_map_results unique_id v }

/-! ## Host loops -/

/-- The host polls `unique_id` until the first empty response: the non-empty
chunks in order and the final state; `none` when `fuel` polls did not reach an
empty response. -/
def drain : Nat → Ext → Int → Int → Option (List Str × Ext)
  | 0, _, _, _ => none
  | fuel + 1, s, unique_id, output_size =>
    let r := getResult_mutexlock s unique_id output_size
    if r.2 = [] then some ([], r.1)
    else (drain fuel r.1 unique_id output_size).map fun q => (r.2 :: q.1, q.2)

/-- The host polls `unique_id` exactly `n` times: the responses in order and the
final state. -/
def polls : Nat → Ext → Int → Int → List Str × Ext
  | 0, s, _, _ => ([], s)
  | n + 1, s, unique_id, output_size =>
    let r := getResult_mutexlock s unique_id output_size
    let q := polls n r.1 unique_id output_size
    (r.2 :: q.1, q.2)

/-- The first `k` pieces of `r` cut every `w` bytes. -/
def chunks (w : Nat) : Nat → Str → List Str
  | 0, _ => []
  | k + 1, r => r.take w :: chunks w k (r.drop w)

/-! ## A concrete environment, for evaluating the definitions -/

namespace Demo

/-- Value of a decimal digit. -/
def digitVal (c : Char) : Option Nat :=
  if 48 ≤ c.toNat ∧ c.toNat ≤ 57 then some (c.toNat - 48) else none

/-- Value of a non-empty string of decimal digits. -/
def parseNat (s : Str) : Option Nat :=
  if s.isEmpty then none
  else s.foldl (fun acc c => acc.bind fun a => (digitVal c).map fun d => a * 10 + d) (some 0)

/-- Plain decimal reading of `Poco::NumberParser::parse`: an optional minus sign
and decimal digits with a value in the range of `int`; anything else throws. -/
def parse (s : Str) : Option Int :=
  match s with
  | '-' :: r => (parseNat r).bind fun n => if (n : Int) ≤ INT_MAX + 1 then some (-(n : Int)) else none
  | _ => (parseNat s).bind fun n => if (n : Int) ≤ INT_MAX then some (n : Int) else none

/-- Tokens between colons (an empty token after a final colon is not produced);
`cur` is the token being read, reversed. -/
def tokenizeAux : Str → Str → List Str
  | [], cur => if cur.isEmpty then [] else [cur.reverse]
  | c :: rest, cur => if c = ':' then cur.reverse :: tokenizeAux rest [] else tokenizeAux rest (c :: cur)

/-- Tokens of the input between colons. -/
def tokenize (s : Str) : List Str := tokenizeAux s []

/-- Every protocol initialises and echoes its input (spec §8, scenario 2). -/
def env : Env :=
  { parse := parse
    tokenize := tokenize
    init := fun _ _ _ => true
    callProtocol := fun _ _ data => data
    isConnected := fun _ => some true
    sqlitePath := fun n => "extDB/sqlite/".toList ++ n }

/-- As `env`, but every protocol answers with a single NUL byte. -/
def envNul : Env := { env with callProtocol := fun _ _ _ => [NUL] }

/-- State of a freshly constructed extension with an empty configuration. -/
def initial : Ext :=
  { mgr := { used := [] }
    extDB_lock := false
    unordered_map_results := fun _ => none
    unordered_map_wait := fun _ => none
    unordered_map_protocol := fun _ => none
    io_service := []
    db_conn_info := { db_type := [], connection_str := [], min_sessions := 0, max_sessions := 0,
                      idle_time := 0 }
    db_pool := none
    max_threads := 1
    steam_api_key := []
    pConf := fun _ => none }

/-- The initial state after `9:ADD:MISC:m`. -/
def withM : Ext :=
  { initial with
    unordered_map_protocol :=
      Function.update initial.unordered_map_protocol "m".toList (some ⟨.MISC, []⟩) }

end Demo

/-! ## Workers and reachable states -/

/-- Value of a byte read as a one-digit decimal number; `none` for any other byte. -/
def digitValue (c : Char) : Option Int :=
  if 48 ≤ c.toNat ∧ c.toNat ≤ 57 then some ((c.toNat : Int) - 48) else none

/-- Name that `addProtocol` compares `protocol` with for each class. -/
def kindName : ProtocolKind → Str
  | .MISC => "MISC".toList
  | .DB_BASIC => "DB_BASIC".toList
  | .DB_BASIC_V2 => "DB_BASIC_V2".toList
  | .DB_PROCEDURE => "DB_PROCEDURE".toList
  | .DB_PROCEDURE_V2 => "DB_PROCEDURE_V2".toList
  | .DB_RAW => "DB_RAW".toList
  | .DB_RAW_V2 => "DB_RAW_V2".toList
  | .DB_RAW_NO_EXTRA_QUOTES => "DB_RAW_NO_EXTRA_QUOTES".toList
  | .DB_RAW_NO_EXTRA_QUOTES_V2 => "DB_RAW_NO_EXTRA_QUOTES_V2".toList
  | .DB_CUSTOM_V2 => "DB_CUSTOM_V2".toList
  | .LOG => "LOG".toList

/-- A worker thread of `io_service` takes the posted job at position `i` and runs
it: `Ext::onewayCallProtocol` or `Ext::asyncCallProtocol` as bound by
`io_service.post`. `none` when there is no such job or the job has no defined
behaviour. -/
def runTask (env : Env) (s : Ext) (i : Nat) : Option Ext :=
  match s.io_service[i]? with
  | none => none
  | some (Task.oneway protocol data) =>
    some (onewayCallProtocol env { s with io_service := s.io_service.eraseIdx i } protocol data)
  | some (Task.async protocol data unique_id) =>
    asyncCallProtocol env { s with io_service := s.io_service.eraseIdx i } protocol data unique_id

/-- State right after the constructor `Ext::Ext`: no id allocated, latch open,
empty maps, no job posted; configuration and thread count are whatever the
constructor read. -/
def IsInitial (s : Ext) : Prop :=
  s.mgr.used = [] ∧ s.extDB_lock = false ∧ (∀ k, s.unordered_map_results k = none)
    ∧ (∀ k, s.unordered_map_wait k = none) ∧ (∀ n, s.unordered_map_protocol n = none)
    ∧ s.io_service = []

/-- One step of the running extension: a host call of `callExtenion` that
returns, or a worker that runs one posted job. -/
inductive Step (env : Env) : Ext → Ext → Prop
  | call (s s' : Ext) (output_size : Int) (function : Str) (output : Option Str) :
      callExtenion env s output_size function = some (s', output) → Step env s s'
  | worker (s s' : Ext) (i : Nat) : runTask env s i = some s' → Step env s s'

/-- States reachable from an initial state by host calls and worker steps. -/
inductive Reachable (env : Env) : Ext → Prop
  | init (s : Ext) : IsInitial s → Reachable env s
  | step (s s' : Ext) : Reachable env s → Step env s s' → Reachable env s'

/-- Ids carried by the posted `asyncCallProtocol` jobs, in queue order. -/
def taskIds (q : List Task) : List Int :=
  q.filterMap fun t =>
    match t with
    | Task.async _ _ unique_id => some unique_id
    | Task.oneway _ _ => none

/-- The id `unique_id` is currently allocated in the id manager. -/
def Allocated (s : Ext) (unique_id : Int) : Prop :=
  ∃ n ∈ s.mgr.used, (n : Int) = unique_id

/-- Inductive invariant of the result store: a pending id has no result entry;
ids with a result entry or a pending mark are allocated; every posted
`asyncCallProtocol` job carries a pending id; no two posted jobs share an id. -/
def Inv (s : Ext) : Prop :=
  (∀ k, s.unordered_map_wait k ≠ none → s.unordered_map_results k = none)
    ∧ (∀ k, s.unordered_map_results k ≠ none → Allocated s k)
    ∧ (∀ k, s.unordered_map_wait k ≠ none → Allocated s k)
    ∧ (∀ k ∈ taskIds s.io_service, s.unordered_map_wait k ≠ none)
    ∧ (taskIds s.io_service).Nodup

/-- Every id that is allocated in `s` and no longer allocated in `s'` had a
result entry in `s` and has none in `s'`. -/
def FreedOnErase (s s' : Ext) : Prop :=
  ∀ n ∈ s.mgr.used, n ∉ s'.mgr.used →
    s.unordered_map_results (n : Int) ≠ none ∧ s'.unordered_map_results (n : Int) = none

/-- The state in which `protocol_name` is bound to a new protocol object of class
`k` (to be) initialised with `init_data`; everything else as in `s`. -/
def bindProtocol (s : Ext) (protocol_name : Str) (k : ProtocolKind) (init_data : Str) : Ext :=
  { s with
    unordered_map_protocol :=
      Function.update s.unordered_map_protocol protocol_name (some ⟨k, init_data⟩) }

/-- The state in which `protocol_name` is bound to no protocol object; everything
else as in `s`. -/
def unbindProtocol (s : Ext) (protocol_name : Str) : Ext :=
  { s with unordered_map_protocol := Function.update s.unordered_map_protocol protocol_name none }

namespace Demo

/-- As `env`, but `init` of every new protocol object returns false. -/
def envFail : Env := { env with init := fun _ _ _ => false }

end Demo

theorem strcpy_of_not_mem {r : Str} (h : NUL ∉ r) : strcpy r = r := by
  unfold strcpy
  rw [List.takeWhile_eq_self_iff]
  intro c hc
  have : c ≠ NUL := fun e => h (e ▸ hc)
  simpa using this

theorem strcpy_length_le (r : Str) : (strcpy r).length ≤ r.length := by
  unfold strcpy
  exact (List.takeWhile_sublist _).length_le

theorem toSizeT_of_nonneg {i : Int} (h0 : 0 ≤ i) (h1 : i ≤ INT_MAX) : toSizeT i = i.toNat := by
  unfold toSizeT
  unfold INT_MAX at h1
  rw [Int.emod_eq_of_lt h0 (by omega)]

theorem getResult_absent (s : Ext) (id cap : Int) (h : s.unordered_map_results id = none) :
    getResult_mutexlock s id cap =
      (s, if s.unordered_map_wait id = none then [] else MSG_WAIT) := by
  simp only [getResult_mutexlock, h]
  have e1 : strcpy [] = [] := rfl
  have e2 : strcpy "[3]".toList = MSG_WAIT := by decide
  rw [e1, e2]
  by_cases hw : s.unordered_map_wait id = none <;> simp [hw]

theorem getResult_done (s : Ext) (id cap : Int) (h : s.unordered_map_results id = some []) :
    getResult_mutexlock s id cap = (freeUniqueID_mutexlock (setResult s id none) id, []) := by
  simp only [getResult_mutexlock, h]
  rfl

theorem getResult_ready (s : Ext) (id cap : Int) (r : Str)
    (h : s.unordered_map_results id = some r) (hne : r ≠ []) :
    getResult_mutexlock s id cap =
      (setResult s id (some (r.drop (toSizeT (cap - 9)))), strcpy (r.take (toSizeT (cap - 9)))) := by
  simp only [getResult_mutexlock, h]
  have he : r.isEmpty = false := by
    cases r with
    | nil => exact absurd rfl hne
    | cons a t => rfl
  simp only [he, substr, substrFrom, List.drop_zero, setResult]
  by_cases hl : r.length > toSizeT (cap - 9)
  · simp [hl]
  · have : r.drop (toSizeT (cap - 9)) = [] := List.drop_eq_nil_of_le (by omega)
    simp [hl, this]

theorem setResult_self (s : Ext) (id : Int) (v : Option Str)
    (h : s.unordered_map_results id = v) : setResult s id v = s := by
  cases s
  simp only [setResult] at h ⊢
  subst h
  simp

theorem setResult_setResult (s : Ext) (id : Int) (a b : Option Str) :
    setResult (setResult s id a) id b = setResult s id b := by
  simp [setResult]

theorem setResult_results_same (s : Ext) (id : Int) (v : Option Str) :
    (setResult s id v).unordered_map_results id = v := by
  simp [setResult]

theorem not_mem_take {r : Str} (h : NUL ∉ r) (w : Nat) : NUL ∉ r.take w :=
  fun hc => h (List.mem_of_mem_take hc)

theorem not_mem_drop {r : Str} (h : NUL ∉ r) (w : Nat) : NUL ∉ r.drop w :=
  fun hc => h (List.mem_of_mem_drop hc)

theorem drain_ready (id cap : Int) (hw : 1 ≤ toSizeT (cap - 9)) :
    ∀ (fuel : Nat) (r : Str) (s : Ext), s.unordered_map_results id = some r → NUL ∉ r →
      r.length + 1 ≤ fuel →
      ∃ cs s', drain fuel s id cap = some (cs, s') ∧ cs.flatten = r := by
  intro fuel
  induction fuel with
  | zero => intro r s _ _ h; omega
  | succ fuel ih =>
    intro r s hr hnul hf
    by_cases hne : r = []
    · subst hne
      refine ⟨[], freeUniqueID_mutexlock (setResult s id none) id, ?_, rfl⟩
      simp [drain, getResult_done s id cap hr]
    · have hlen : 0 < r.length := List.length_pos.mpr hne
      have hout : strcpy (r.take (toSizeT (cap - 9))) = r.take (toSizeT (cap - 9)) :=
        strcpy_of_not_mem (not_mem_take hnul _)
      have hout_ne : r.take (toSizeT (cap - 9)) ≠ [] := by
        intro e
        have := congrArg List.length e
        rw [List.length_take, List.length_nil] at this
        omega
      obtain ⟨cs, s', hd, hj⟩ := ih (r.drop (toSizeT (cap - 9)))
        (setResult s id (some (r.drop (toSizeT (cap - 9)))))
        (setResult_results_same _ _ _) (not_mem_drop hnul _) (by rw [List.length_drop]; omega)
      refine ⟨r.take (toSizeT (cap - 9)) :: cs, s', ?_, ?_⟩
      · simp [drain, getResult_ready s id cap r hr hne, hout, hout_ne, hd]
      · simp [hj]

theorem chunks_length (w : Nat) : ∀ (k : Nat) (r : Str), (chunks w k r).length = k := by
  intro k
  induction k with
  | zero => intro r; rfl
  | succ k ih => intro r; simp [chunks, ih]

theorem chunks_flatten (w : Nat) : ∀ (k : Nat) (r : Str), (chunks w k r).flatten = r.take (k * w) := by
  intro k
  induction k with
  | zero => intro r; simp [chunks]
  | succ k ih =>
    intro r
    simp only [chunks, List.flatten_cons, ih]
    rw [Nat.succ_mul, Nat.add_comm (k * w) w, List.take_add]

theorem chunks_ne_nil (w : Nat) (hw : 1 ≤ w) :
    ∀ (k : Nat) (r : Str), k * w < r.length + w → ∀ c ∈ chunks w k r, c ≠ [] := by
  intro k
  induction k with
  | zero => intro r _ c hc; simp [chunks] at hc
  | succ k ih =>
    intro r hk c hc
    have hk' : k * w + w < r.length + w := by rw [Nat.succ_mul] at hk; exact hk
    simp only [chunks, List.mem_cons] at hc
    rcases hc with rfl | hc
    · intro e
      have := congrArg List.length e
      rw [List.length_take, List.length_nil] at this
      omega
    · refine ih (r.drop w) ?_ c hc
      rw [List.length_drop]
      omega

theorem polls_ready (id cap : Int) :
    ∀ (k : Nat) (r : Str) (s : Ext), s.unordered_map_results id = some r → NUL ∉ r →
      k * toSizeT (cap - 9) < r.length + toSizeT (cap - 9) →
      polls k s id cap =
        (chunks (toSizeT (cap - 9)) k r, setResult s id (some (r.drop (k * toSizeT (cap - 9))))) := by
  intro k
  induction k with
  | zero =>
    intro r s hr _ _
    simp [polls, chunks, setResult_self s id (some r) hr]
  | succ k ih =>
    intro r s hr hnul hk
    have hk' : k * toSizeT (cap - 9) + toSizeT (cap - 9) < r.length + toSizeT (cap - 9) := by
      rw [Nat.succ_mul] at hk; exact hk
    have hne : r ≠ [] := by
      intro e; subst e; simp at hk'
    have hstep := ih (r.drop (toSizeT (cap - 9)))
      (setResult s id (some (r.drop (toSizeT (cap - 9)))))
      (setResult_results_same _ _ _) (not_mem_drop hnul _) (by rw [List.length_drop]; omega)
    simp only [polls, getResult_ready s id cap r hr hne, hstep, chunks, setResult_setResult,
      strcpy_of_not_mem (not_mem_take hnul _), List.drop_drop]
    rw [Nat.succ_mul, Nat.add_comm (toSizeT (cap - 9))]

theorem polls_absent (id cap : Int) (s : Ext) (hr : s.unordered_map_results id = none)
    (hw : s.unordered_map_wait id = none) :
    ∀ m : Nat, polls m s id cap = (List.replicate m [], s) := by
  intro m
  induction m with
  | zero => rfl
  | succ m ih => simp [polls, getResult_absent s id cap hr, hw, ih, List.replicate_succ]

/-! ### Allocator -/

theorem firstFree_not_mem (used : List Nat) : firstFree used ∉ used := by
  unfold firstFree
  cases hf : (List.range (used.length + 1)).find? (fun n => decide (n ∉ used)) with
  | some n =>
    have := List.find?_some hf
    simpa using this
  | none =>
    exfalso
    rw [List.find?_eq_none] at hf
    have hsub : List.range (used.length + 1) ⊆ used := by
      intro n hn
      have := hf n hn
      simpa using this
    have hle := (List.subperm_of_subset (List.nodup_range _) hsub).length_le
    simp at hle

theorem firstFree_le_length (used : List Nat) : firstFree used ≤ used.length := by
  unfold firstFree
  cases hf : (List.range (used.length + 1)).find? (fun n => decide (n ∉ used)) with
  | some n =>
    have := List.mem_of_find?_eq_some hf
    simp at this
    simp
    omega
  | none => simp

/-! ### Decimal text -/

theorem digitChar_ne_NUL (d : Nat) (h : d < 10) : digitChar d ≠ NUL := by
  interval_cases d <;> decide

theorem digitChar_ne_colon (d : Nat) (h : d < 10) : digitChar d ≠ ':' := by
  interval_cases d <;> decide

theorem natDigits_mem (fuel : Nat) : ∀ (n : Nat) (acc : Str) (c : Char),
    c ∈ natDigits fuel n acc → c ∈ acc ∨ ∃ d, d < 10 ∧ c = digitChar d := by
  induction fuel with
  | zero => intro n acc c h; exact Or.inl h
  | succ fuel ih =>
    intro n acc c h
    simp only [natDigits] at h
    split at h
    · rcases List.mem_cons.mp h with rfl | h
      · exact Or.inr ⟨n, by assumption, rfl⟩
      · exact Or.inl h
    · rcases ih _ _ _ h with h | h
      · rcases List.mem_cons.mp h with rfl | h
        · exact Or.inr ⟨n % 10, Nat.mod_lt _ (by decide), rfl⟩
        · exact Or.inl h
      · exact Or.inr h

theorem natDigits_length (fuel : Nat) : ∀ (n : Nat) (acc : Str) (k : Nat),
    n < 10 ^ (k + 1) → (natDigits (fuel + 1) n acc).length ≤ acc.length + (k + 1) := by
  induction fuel with
  | zero =>
    intro n acc k _
    simp only [natDigits]
    split <;> simp
  | succ fuel ih =>
    intro n acc k hn
    rw [natDigits]
    split
    · simp
    · rename_i h10
      cases k with
      | zero => simp at hn; omega
      | succ k =>
        have := ih (n / 10) (digitChar (n % 10) :: acc) k
          (by rw [Nat.div_lt_iff_lt_mul (by decide)]; rw [pow_succ] at hn; exact hn)
        simp at this ⊢
        omega

theorem natDigits_ne_nil (fuel : Nat) (n : Nat) (acc : Str) :
    natDigits (fuel + 1) n acc ≠ [] := by
  induction fuel generalizing n acc with
  | zero => simp only [natDigits]; split <;> simp
  | succ fuel ih =>
    rw [natDigits]
    split
    · simp
    · exact ih _ _

theorem format_ne_nil (i : Int) : format i ≠ [] := by
  unfold format
  split
  · simp
  · exact natDigits_ne_nil _ _ _

theorem format_natCast_not_mem_NUL (n : Nat) : NUL ∉ format (n : Int) := by
  unfold format
  have : ¬ ((n : Int) < 0) := by omega
  rw [if_neg this]
  intro h
  rcases natDigits_mem _ _ _ _ h with h | ⟨d, hd, e⟩
  · simp at h
  · exact digitChar_ne_NUL d hd e.symm

theorem format_natCast_length (n : Nat) (h : (n : Int) ≤ INT_MAX) :
    (format (n : Int)).length ≤ 10 := by
  unfold format
  have : ¬ ((n : Int) < 0) := by omega
  rw [if_neg this]
  have hn : n < 10 ^ (9 + 1) := by unfold INT_MAX at h; norm_num; omega
  have := natDigits_length (n : Int).natAbs (n : Int).natAbs [] 9 (by simpa using hn)
  simpa using this

theorem ticket_natCast_strcpy (n : Nat) : strcpy (ticket (n : Int)) = ticket (n : Int) := by
  apply strcpy_of_not_mem
  unfold ticket
  intro h
  rw [List.mem_append, List.mem_append] at h
  rcases h with (h | h) | h
  · exact absurd h (by decide)
  · exact format_natCast_not_mem_NUL n h
  · exact absurd h (by decide)

theorem ticket_length (i : Int) : (ticket i).length = (format i).length + 6 := by
  unfold ticket
  simp

/-! ### Searching the separator -/

theorem findIdx_eq_none {c : Char} : ∀ {l : Str}, c ∉ l → findIdx c l = none := by
  intro l
  induction l with
  | nil => intro _; rfl
  | cons x xs ih =>
    intro h
    have hx : x ≠ c := fun e => h (e ▸ List.mem_cons_self _ _)
    have hxs : c ∉ xs := fun e => h (List.mem_cons_of_mem _ e)
    simp [findIdx, hx, ih hxs]

theorem findIdx_append_cons {c : Char} : ∀ (a b : Str), c ∉ a →
    findIdx c (a ++ c :: b) = some a.length := by
  intro a
  induction a with
  | nil => intro b _; simp [findIdx]
  | cons x xs ih =>
    intro b h
    have hx : x ≠ c := fun e => h (e ▸ List.mem_cons_self _ _)
    have hxs : c ∉ xs := fun e => h (List.mem_cons_of_mem _ e)
    simp [findIdx, hx, ih b hxs]

theorem find_none (input : Str) (c : Char) (pos : Nat) (h : c ∉ input.drop pos) :
    find input c pos = none := by
  simp [find, findIdx_eq_none h]

theorem find_split (input a b : Str) (c : Char) (pos : Nat)
    (h : input.drop pos = a ++ c :: b) (ha : c ∉ a) :
    find input c pos = some (a.length + pos) := by
  simp [find, h, findIdx_append_cons a b ha]

/-! ### Fixed responses contain no NUL byte -/

theorem strcpy_MSG_TOO_SHORT : strcpy MSG_TOO_SHORT = MSG_TOO_SHORT := by decide
theorem strcpy_MSG_INVALID_MESSAGE : strcpy MSG_INVALID_MESSAGE = MSG_INVALID_MESSAGE := by decide
theorem strcpy_MSG_INVALID_FORMAT : strcpy MSG_INVALID_FORMAT = MSG_INVALID_FORMAT := by decide
theorem strcpy_MSG_UNKNOWN_PROTOCOL : strcpy MSG_UNKNOWN_PROTOCOL = MSG_UNKNOWN_PROTOCOL := by
  decide
theorem strcpy_MSG_FAILED_TO_LOAD : strcpy MSG_FAILED_TO_LOAD = MSG_FAILED_TO_LOAD := by decide
theorem strcpy_MSG_POOL_FAILED : strcpy MSG_POOL_FAILED = MSG_POOL_FAILED := by decide
theorem strcpy_MSG_UNKNOWN_DB_TYPE : strcpy MSG_UNKNOWN_DB_TYPE = MSG_UNKNOWN_DB_TYPE := by decide
theorem strcpy_MSG_NO_CONFIG_OPTION : strcpy MSG_NO_CONFIG_OPTION = MSG_NO_CONFIG_OPTION := by
  decide
theorem strcpy_MSG_OK : strcpy MSG_OK = MSG_OK := by decide
theorem strcpy_MSG_WAIT : strcpy MSG_WAIT = MSG_WAIT := by decide
theorem strcpy_version : strcpy version = version := by decide

/-! ### Splitting in the dispatcher -/

theorem callExtenion_no_separator (env : Env) (s : Ext) (cap : Int) (input : Str) (m : Int)
    (hlen : 2 < input.length) (hparse : env.parse (input.take 1) = some m)
    (hm : m = 0 ∨ m = 1 ∨ m = 2) (hsep : ':' ∉ input.drop 2) :
    callExtenion env s cap input = some (s, some MSG_INVALID_FORMAT) := by
  have hl : ¬ input.length ≤ 2 := by omega
  have hp : env.parse (substr input 0 1) = some m := by simpa [substr] using hparse
  have hf := find_none input ':' 2 hsep
  rcases hm with rfl | rfl | rfl <;>
    simp [callExtenion, hl, hp, hf, strcpy_MSG_INVALID_FORMAT]

theorem callExtenion_separator (env : Env) (s : Ext) (cap : Int) (input a b : Str) (m : Int)
    (hlen : 2 < input.length) (hparse : env.parse (input.take 1) = some m)
    (hm : m = 0 ∨ m = 1 ∨ m = 2) (hdrop : input.drop 2 = a ++ ':' :: b) (ha : ':' ∉ a) :
    callExtenion env s cap input = some (found_branch env s cap m a b) := by
  have hl : ¬ input.length ≤ 2 := by omega
  have hp : env.parse (substr input 0 1) = some m := by simpa [substr] using hparse
  have hf := find_split input a b ':' 2 hdrop ha
  have h1 : substr input 2 (a.length) = a := by
    simp [substr, hdrop]
  have h2 : substrFrom input (a.length + 2 + 1) = b := by
    have : input.drop (a.length + 2 + 1) = (input.drop 2).drop (a.length + 1) := by
      rw [List.drop_drop]
      congr 1
      omega
    rw [substrFrom, this, hdrop, List.drop_append_eq_append_drop]
    simp
  rcases hm with rfl | rfl | rfl <;>
    simp [callExtenion, hl, hp, hf, h1, h2, found_branch]

/-! ### Lengths of responses -/

theorem startPool_output (env : Env) (s s' : Ext) (i : DBConnectionInfo) (r : Str)
    (h : startPool env s i = some (s', r)) : r.length ≤ 34 := by
  unfold startPool at h
  cases hc : env.isConnected (newDBPool i) with
  | none => simp [hc] at h
  | some ok =>
    simp only [hc, Option.map_some', Option.some.injEq, Prod.mk.injEq] at h
    obtain ⟨_, rfl⟩ := h
    cases ok <;> decide

theorem connectDatabase_output (env : Env) (s s' : Ext) (cap : Int) (conf_option r : Str)
    (h : connectDatabase env s cap conf_option = some (s', r)) : r.length ≤ 34 := by
  unfold connectDatabase at h
  split at h
  · simp only [Option.some.injEq, Prod.mk.injEq] at h
    obtain ⟨_, rfl⟩ := h
    decide
  · simp only [bind, Option.bind_eq_some] at h
    obtain ⟨db_name, _, m1, _, m2, _, idle, _, h⟩ := h
    by_cases hmx : s.db_conn_info.max_sessions ≤ 0 <;> simp only [hmx, if_true, if_false] at h
    all_goals
      split at h
      · simp only [bind, Option.bind_eq_some] at h
        obtain ⟨username, _, password, _, ip, _, port, _, h⟩ := h
        split at h <;> exact startPool_output _ _ _ _ _ h
      · split at h
        · exact startPool_output _ _ _ _ _ h
        · simp only [Option.some.injEq, Prod.mk.injEq] at h
          obtain ⟨_, rfl⟩ := h
          decide

theorem addProtocol_output (env : Env) (s : Ext) (cap : Int) (a b c : Str) :
    (addProtocol env s cap a b c).2.length ≤ 29 := by
  unfold addProtocol
  cases kindOf a with
  | none =>
    show (strcpy MSG_UNKNOWN_PROTOCOL).length ≤ 29
    decide
  | some k =>
    dsimp only
    split
    · show (strcpy MSG_FAILED_TO_LOAD).length ≤ 29
      decide
    · show (strcpy MSG_OK).length ≤ 29
      decide

theorem getResult_output (s : Ext) (id cap : Int) (h12 : 12 ≤ cap) (hmax : cap ≤ INT_MAX) :
    ((getResult_mutexlock s id cap).2.length : Int) ≤ cap - 9 := by
  have hw : toSizeT (cap - 9) = (cap - 9).toNat :=
    toSizeT_of_nonneg (by omega) (by unfold INT_MAX at *; omega)
  cases hr : s.unordered_map_results id with
  | none =>
    rw [getResult_absent s id cap hr]
    split
    · simp; omega
    · have : MSG_WAIT.length = 3 := by decide
      simp only [this]; omega
  | some r =>
    by_cases hne : r = []
    · subst hne
      rw [getResult_done s id cap hr]
      simp; omega
    · rw [getResult_ready s id cap r hr hne, hw]
      have h1 := strcpy_length_le (r.take (cap - 9).toNat)
      have h2 : (r.take (cap - 9).toNat).length ≤ (cap - 9).toNat := List.length_take_le _ _
      simp only
      omega

theorem ticket_output (n : Nat) (h : (n : Int) ≤ INT_MAX) : (strcpy (ticket (n : Int))).length ≤ 16 := by
  rw [ticket_natCast_strcpy, ticket_length]
  have := format_natCast_length n h
  omega

theorem syncCallProtocol_output (env : Env) (s : Ext) (cap : Int) (proto data : Str)
    (h48 : 48 ≤ cap) (hmax : cap ≤ INT_MAX) (hid : (firstFree s.mgr.used : Int) ≤ INT_MAX) :
    ((syncCallProtocol env s cap proto data).2.length : Int) ≤ cap - 1 := by
  have hw : toSizeT (cap - 9) = (cap - 9).toNat :=
    toSizeT_of_nonneg (by omega) (by unfold INT_MAX at *; omega)
  cases hp : s.unordered_map_protocol proto with
  | none =>
    simp only [syncCallProtocol, hp]
    have : (strcpy MSG_UNKNOWN_PROTOCOL).length = 28 := by decide
    omega
  | some itr =>
    simp only [syncCallProtocol, hp]
    by_cases hfit : (env.callProtocol itr s data).length ≤ toSizeT (cap - 9)
    · simp only [hfit, if_true]
      rw [hw] at hfit
      have h1 := strcpy_length_le ("[1, ".toList ++ env.callProtocol itr s data ++ "]".toList)
      simp only [List.length_append] at h1
      have h2 : "[1, ".toList.length = 4 := by decide
      have h3 : "]".toList.length = 1 := by decide
      omega
    · simp only [hfit, if_false]
      have := ticket_output (firstFree s.mgr.used) hid
      simp only [getUniqueID_mutexlock, IdManager.AllocateId]
      omega

theorem case_2_found_output (s : Ext) (cap : Int) (proto data r : Str)
    (h48 : 48 ≤ cap) (hid : (firstFree s.mgr.used : Int) ≤ INT_MAX)
    (h : (case_2_found s proto data).2 = some r) : (r.length : Int) ≤ cap - 1 := by
  have ht := ticket_output (firstFree s.mgr.used) hid
  have hu : (strcpy MSG_UNKNOWN_PROTOCOL).length = 28 := by decide
  cases hp : s.unordered_map_protocol proto with
  | none =>
    simp only [case_2_found, getUniqueID_mutexlock, IdManager.AllocateId, hp,
      Option.some.injEq] at h
    subst h
    omega
  | some itr =>
    simp only [case_2_found, getUniqueID_mutexlock, IdManager.AllocateId, hp,
      Option.some.injEq] at h
    subst h
    omega

theorem case_9_output (env : Env) (s s' : Ext) (cap : Int) (input r : Str) (h48 : 48 ≤ cap)
    (h : case_9 env s cap input = some (s', some r)) : (r.length : Int) ≤ cap - 1 := by
  unfold case_9 at h
  split at h
  · split at h
    · split at h
      · simp only [Option.some.injEq, Prod.mk.injEq] at h
        obtain ⟨_, rfl⟩ := h
        have : (strcpy version).length = 2 := by decide
        simp only [this]; omega
      · split at h <;> simp at h
    · simp only [Option.map_eq_some', Prod.mk.injEq, Option.some.injEq] at h
      obtain ⟨q, hq, _, rfl⟩ := h
      have := connectDatabase_output env s q.1 cap _ q.2 hq
      omega
    · simp only [Option.some.injEq, Prod.mk.injEq] at h
      obtain ⟨_, rfl⟩ := h
      refine le_trans (Int.ofNat_le.mpr (addProtocol_output _ _ _ _ _ _)) ?_
      omega
    · simp only [Option.some.injEq, Prod.mk.injEq] at h
      obtain ⟨_, rfl⟩ := h
      refine le_trans (Int.ofNat_le.mpr (addProtocol_output _ _ _ _ _ _)) ?_
      omega
    · simp only [Option.some.injEq, Prod.mk.injEq] at h
      obtain ⟨_, rfl⟩ := h
      have : (strcpy MSG_INVALID_FORMAT).length = 26 := by decide
      simp only [this]; omega
  · simp at h

/-! ### Protocol classes -/

theorem kindOf_of_iequals (protocol : Str) (k : ProtocolKind)
    (h : iequals protocol (kindName k) = true) : kindOf protocol = some k := by
  have hu : protocol.map Char.toUpper = (kindName k).map Char.toUpper := by
    simpa [iequals] using h
  unfold kindOf iequals
  rw [hu]
  cases k <;> decide

theorem iequals_of_kindOf (protocol : Str) (k : ProtocolKind)
    (h : kindOf protocol = some k) : iequals protocol (kindName k) = true := by
  unfold kindOf at h
  by_cases h1 : iequals protocol "MISC".toList = true
  · rw [if_pos h1] at h; cases h; exact h1
  rw [if_neg h1] at h
  by_cases h2 : iequals protocol "DB_BASIC".toList = true
  · rw [if_pos h2] at h; cases h; exact h2
  rw [if_neg h2] at h
  by_cases h3 : iequals protocol "DB_BASIC_V2".toList = true
  · rw [if_pos h3] at h; cases h; exact h3
  rw [if_neg h3] at h
  by_cases h4 : iequals protocol "DB_PROCEDURE".toList = true
  · rw [if_pos h4] at h; cases h; exact h4
  rw [if_neg h4] at h
  by_cases h5 : iequals protocol "DB_PROCEDURE_V2".toList = true
  · rw [if_pos h5] at h; cases h; exact h5
  rw [if_neg h5] at h
  by_cases h6 : iequals protocol "DB_RAW".toList = true
  · rw [if_pos h6] at h; cases h; exact h6
  rw [if_neg h6] at h
  by_cases h7 : iequals protocol "DB_RAW_V2".toList = true
  · rw [if_pos h7] at h; cases h; exact h7
  rw [if_neg h7] at h
  by_cases h8 : iequals protocol "DB_RAW_NO_EXTRA_QUOTES".toList = true
  · rw [if_pos h8] at h; cases h; exact h8
  rw [if_neg h8] at h
  by_cases h9 : iequals protocol "DB_RAW_NO_EXTRA_QUOTES_V2".toList = true
  · rw [if_pos h9] at h; cases h; exact h9
  rw [if_neg h9] at h
  by_cases h10 : iequals protocol "DB_CUSTOM_V2".toList = true
  · rw [if_pos h10] at h; cases h; exact h10
  rw [if_neg h10] at h
  by_cases h11 : iequals protocol "LOG".toList = true
  · rw [if_pos h11] at h; cases h; exact h11
  rw [if_neg h11] at h
  cases h

theorem kindOf_eq_none_iff (protocol : Str) :
    kindOf protocol = none ↔ ∀ k, iequals protocol (kindName k) = false := by
  constructor
  · intro h k
    cases hk : iequals protocol (kindName k) with
    | false => rfl
    | true => rw [kindOf_of_iequals protocol k hk] at h; exact absurd h (by simp)
  · intro h
    cases hk : kindOf protocol with
    | none => rfl
    | some k =>
      have h1 := iequals_of_kindOf protocol k hk
      rw [h k] at h1
      exact absurd h1 (by simp)

/-! ### What each operation leaves untouched -/

theorem getResult_frame (s : Ext) (id cap : Int) :
    (getResult_mutexlock s id cap).1.extDB_lock = s.extDB_lock
      ∧ (getResult_mutexlock s id cap).1.unordered_map_wait = s.unordered_map_wait
      ∧ (getResult_mutexlock s id cap).1.io_service = s.io_service
      ∧ (getResult_mutexlock s id cap).1.unordered_map_protocol = s.unordered_map_protocol := by
  cases hr : s.unordered_map_results id with
  | none => rw [getResult_absent s id cap hr]; exact ⟨rfl, rfl, rfl, rfl⟩
  | some r =>
    by_cases hne : r = []
    · subst hne
      rw [getResult_done s id cap hr]; exact ⟨rfl, rfl, rfl, rfl⟩
    · rw [getResult_ready s id cap r hr hne]; exact ⟨rfl, rfl, rfl, rfl⟩

theorem syncCallProtocol_frame (env : Env) (s : Ext) (cap : Int) (proto data : Str) :
    (syncCallProtocol env s cap proto data).1.extDB_lock = s.extDB_lock
      ∧ (syncCallProtocol env s cap proto data).1.io_service = s.io_service
      ∧ (syncCallProtocol env s cap proto data).1.unordered_map_protocol
          = s.unordered_map_protocol := by
  cases hp : s.unordered_map_protocol proto with
  | none => simp [syncCallProtocol, hp]
  | some itr =>
    simp only [syncCallProtocol, hp]
    split <;> simp [getUniqueID_mutexlock, saveResult_mutexlock]

theorem case_2_found_frame (s : Ext) (proto data : Str) :
    (case_2_found s proto data).1.extDB_lock = s.extDB_lock
      ∧ (case_2_found s proto data).1.unordered_map_results = s.unordered_map_results
      ∧ (case_2_found s proto data).1.unordered_map_protocol = s.unordered_map_protocol := by
  cases hp : s.unordered_map_protocol proto with
  | none => simp [case_2_found, getUniqueID_mutexlock, IdManager.AllocateId, hp]
  | some itr => simp [case_2_found, getUniqueID_mutexlock, IdManager.AllocateId, hp]

theorem startPool_frame (env : Env) (s s' : Ext) (i : DBConnectionInfo) (r : Str)
    (h : startPool env s i = some (s', r)) :
    s'.extDB_lock = s.extDB_lock ∧ s'.mgr = s.mgr
      ∧ s'.unordered_map_results = s.unordered_map_results
      ∧ s'.unordered_map_wait = s.unordered_map_wait ∧ s'.io_service = s.io_service
      ∧ s'.unordered_map_protocol = s.unordered_map_protocol := by
  unfold startPool at h
  cases hc : env.isConnected (newDBPool i) with
  | none => simp [hc] at h
  | some ok =>
    simp only [hc, Option.map_some', Option.some.injEq, Prod.mk.injEq] at h
    obtain ⟨rfl, _⟩ := h
    exact ⟨rfl, rfl, rfl, rfl, rfl, rfl⟩

theorem connectDatabase_frame (env : Env) (s s' : Ext) (cap : Int) (conf_option r : Str)
    (h : connectDatabase env s cap conf_option = some (s', r)) :
    s'.extDB_lock = s.extDB_lock ∧ s'.mgr = s.mgr
      ∧ s'.unordered_map_results = s.unordered_map_results
      ∧ s'.unordered_map_wait = s.unordered_map_wait ∧ s'.io_service = s.io_service
      ∧ s'.unordered_map_protocol = s.unordered_map_protocol := by
  unfold connectDatabase at h
  split at h
  · simp only [Option.some.injEq, Prod.mk.injEq] at h
    obtain ⟨rfl, _⟩ := h
    exact ⟨rfl, rfl, rfl, rfl, rfl, rfl⟩
  · simp only [bind, Option.bind_eq_some] at h
    obtain ⟨db_name, _, m1, _, m2, _, idle, _, h⟩ := h
    by_cases hmx : s.db_conn_info.max_sessions ≤ 0 <;> simp only [hmx, if_true, if_false] at h
    all_goals
      split at h
      · simp only [bind, Option.bind_eq_some] at h
        obtain ⟨username, _, password, _, ip, _, port, _, h⟩ := h
        split at h <;> exact startPool_frame _ _ _ _ _ h
      · split at h
        · exact startPool_frame _ _ _ _ _ h
        · simp only [Option.some.injEq, Prod.mk.injEq] at h
          obtain ⟨rfl, _⟩ := h
          exact ⟨rfl, rfl, rfl, rfl, rfl, rfl⟩

theorem addProtocol_frame (env : Env) (s : Ext) (cap : Int) (a b c : Str) :
    (addProtocol env s cap a b c).1.extDB_lock = s.extDB_lock
      ∧ (addProtocol env s cap a b c).1.mgr = s.mgr
      ∧ (addProtocol env s cap a b c).1.unordered_map_results = s.unordered_map_results
      ∧ (addProtocol env s cap a b c).1.unordered_map_wait = s.unordered_map_wait
      ∧ (addProtocol env s cap a b c).1.io_service = s.io_service := by
  unfold addProtocol
  cases kindOf a with
  | none => exact ⟨rfl, rfl, rfl, rfl, rfl⟩
  | some k =>
    dsimp only
    split
    · exact ⟨rfl, rfl, rfl, rfl, rfl⟩
    · exact ⟨rfl, rfl, rfl, rfl, rfl⟩

/-! ### Mode byte -/

theorem char_eq_of_toNat (c : Char) (n : Nat) (h : c.toNat = n) : c = Char.ofNat n := by
  rw [← h, Char.ofNat_toNat]

theorem digitValue_mode (c : Char) (m : Int) (h : digitValue c = some m)
    (hm : m = 0 ∨ m = 1 ∨ m = 2 ∨ m = 5 ∨ m = 9) :
    c = '0' ∨ c = '1' ∨ c = '2' ∨ c = '5' ∨ c = '9' := by
  unfold digitValue at h
  split at h
  · simp only [Option.some.injEq] at h
    rcases hm with rfl | rfl | rfl | rfl | rfl
    · exact Or.inl (char_eq_of_toNat c 48 (by omega))
    · exact Or.inr (Or.inl (char_eq_of_toNat c 49 (by omega)))
    · exact Or.inr (Or.inr (Or.inl (char_eq_of_toNat c 50 (by omega))))
    · exact Or.inr (Or.inr (Or.inr (Or.inl (char_eq_of_toNat c 53 (by omega)))))
    · exact Or.inr (Or.inr (Or.inr (Or.inr (char_eq_of_toNat c 57 (by omega)))))
  · exact absurd h (by simp)

theorem Demo_parse_single (c : Char) : Demo.env.parse [c] = digitValue c := by
  show Demo.parse [c] = digitValue c
  by_cases hc : c = '-'
  · subst hc; decide
  · unfold Demo.parse
    split
    · rename_i r heq
      simp only [List.cons.injEq] at heq
      exact absurd heq.1 hc
    · unfold Demo.parseNat Demo.digitVal digitValue
      by_cases hd : 48 ≤ c.toNat ∧ c.toNat ≤ 57
      · simp [hd, INT_MAX]
        omega
      · simp [hd]

theorem callExtenion_parse_none (env : Env) (s : Ext) (cap : Int) (input : Str)
    (hlen : 2 < input.length) (hparse : env.parse (input.take 1) = none) :
    callExtenion env s cap input = some (s, some MSG_INVALID_MESSAGE) := by
  have hl : ¬ input.length ≤ 2 := by omega
  have hp : env.parse (substr input 0 1) = none := by simpa [substr] using hparse
  simp [callExtenion, hl, hp, strcpy_MSG_INVALID_MESSAGE]

theorem callExtenion_other_mode (env : Env) (s : Ext) (cap : Int) (input : Str) (m : Int)
    (hlen : 2 < input.length) (hparse : env.parse (input.take 1) = some m)
    (h0 : m ≠ 0) (h1 : m ≠ 1) (h2 : m ≠ 2) (h5 : m ≠ 5) (h9 : m ≠ 9) :
    callExtenion env s cap input = some (s, some MSG_INVALID_MESSAGE) := by
  have hl : ¬ input.length ≤ 2 := by omega
  have hp : env.parse (substr input 0 1) = some m := by simpa [substr] using hparse
  simp [callExtenion, hl, hp, h0, h1, h2, h5, h9, strcpy_MSG_INVALID_MESSAGE]

theorem callExtenion_mode_9 (env : Env) (s : Ext) (cap : Int) (input : Str)
    (hlen : 2 < input.length) (hparse : env.parse (input.take 1) = some 9) :
    callExtenion env s cap input = case_9 env s cap input := by
  have hl : ¬ input.length ≤ 2 := by omega
  have hp : env.parse (substr input 0 1) = some 9 := by simpa [substr] using hparse
  simp [callExtenion, hl, hp]

/-! ### The admin latch -/

theorem fst_of_some_eq {x : Ext × Option Str} {s' : Ext} {out : Option Str}
    (h : some x = some (s', out)) : s' = x.1 := by
  cases h; rfl

theorem callExtenion_lock (env : Env) (s s' : Ext) (cap : Int) (input : Str) (out : Option Str)
    (h : callExtenion env s cap input = some (s', out)) (hlock : s.extDB_lock = true) :
    s'.extDB_lock = true := by
  unfold callExtenion at h
  dsimp only at h
  split at h
  · simp only [Option.some.injEq, Prod.mk.injEq] at h
    obtain ⟨rfl, _⟩ := h
    exact hlock
  · cases hp : env.parse (substr input 0 1) with
    | none =>
      simp only [hp, Option.some.injEq, Prod.mk.injEq] at h
      obtain ⟨rfl, _⟩ := h
      exact hlock
    | some async =>
      simp only [hp] at h
      have h9 : case_9 env s cap input = some (s, none) := by
        simp [case_9, hlock]
      have h5 : (case_5 env s cap input).1.extDB_lock = true := by
        simp only [case_5]
        split
        · exact hlock
        · rw [(getResult_frame s _ cap).1]; exact hlock
      cases hf : find input ':' 2 with
      | none =>
        simp only [hf] at h
        repeat' split at h
        all_goals first
          | (rw [h9] at h
             rw [fst_of_some_eq h]
             exact hlock)
          | (rw [fst_of_some_eq h]
             first | exact hlock | exact h5)
      | some found =>
        simp only [hf] at h
        repeat' split at h
        all_goals first
          | (rw [h9] at h
             rw [fst_of_some_eq h]
             exact hlock)
          | (rw [fst_of_some_eq h]
             first
               | exact hlock
               | exact h5
               | exact (case_2_found_frame s _ _).1.trans hlock
               | exact (syncCallProtocol_frame env s cap _ _).1.trans hlock)

theorem runTask_lock (env : Env) (s s' : Ext) (i : Nat) (h : runTask env s i = some s') :
    s'.extDB_lock = s.extDB_lock := by
  unfold runTask at h
  split at h
  · exact absurd h (by simp)
  · simp only [Option.some.injEq] at h
    subst h
    unfold onewayCallProtocol
    split <;> rfl
  · unfold asyncCallProtocol at h
    split at h
    · exact absurd h (by simp)
    · simp only [Option.some.injEq] at h
      subst h
      rfl

theorem step_lock (env : Env) (s s' : Ext) (h : Step env s s') (hlock : s.extDB_lock = true) :
    s'.extDB_lock = true := by
  cases h with
  | call cap input out hc => exact callExtenion_lock env s s' cap input out hc hlock
  | worker i hw => rw [runTask_lock env s s' i hw]; exact hlock

/-! ### Ids of posted jobs -/

theorem taskIds_append_async (q : List Task) (p d : Str) (id : Int) :
    taskIds (q ++ [Task.async p d id]) = taskIds q ++ [id] := by
  simp [taskIds, List.filterMap_append]

theorem taskIds_append_oneway (q : List Task) (p d : Str) :
    taskIds (q ++ [Task.oneway p d]) = taskIds q := by
  simp [taskIds, List.filterMap_append]

theorem taskIds_eraseIdx_sublist (q : List Task) (i : Nat) :
    (taskIds (q.eraseIdx i)).Sublist (taskIds q) :=
  (List.eraseIdx_sublist q i).filterMap _

theorem taskIds_split (q : List Task) (i : Nat) (p d : Str) (id : Int)
    (h : q[i]? = some (Task.async p d id)) :
    taskIds q = taskIds (q.take i) ++ id :: taskIds (q.drop (i + 1))
      ∧ taskIds (q.eraseIdx i) = taskIds (q.take i) ++ taskIds (q.drop (i + 1)) := by
  have hlt : i < q.length := by
    by_contra hge
    rw [List.getElem?_eq_none (by omega)] at h
    exact absurd h (by simp)
  have hget : q[i] = Task.async p d id := by
    rw [List.getElem?_eq_getElem hlt] at h
    exact Option.some.inj h
  have hq : q = q.take i ++ Task.async p d id :: q.drop (i + 1) := by
    rw [← hget, ← List.drop_eq_getElem_cons hlt, List.take_append_drop]
  constructor
  · conv_lhs => rw [hq]
    simp [taskIds, List.filterMap_append]
  · rw [List.eraseIdx_eq_take_drop_succ]
    simp [taskIds, List.filterMap_append]

theorem taskIds_erase_async (q : List Task) (i : Nat) (p d : Str) (id : Int)
    (h : q[i]? = some (Task.async p d id)) (hnd : (taskIds q).Nodup) :
    id ∈ taskIds q ∧ id ∉ taskIds (q.eraseIdx i) := by
  obtain ⟨h1, h2⟩ := taskIds_split q i p d id h
  constructor
  · rw [h1]; simp
  · rw [h1, List.nodup_middle, List.nodup_cons] at hnd
    rw [h2]
    exact hnd.1

/-! ### The invariant is kept by every operation -/

theorem Inv_frame (s s' : Ext) (hm : s'.mgr = s.mgr)
    (hr : s'.unordered_map_results = s.unordered_map_results)
    (hw : s'.unordered_map_wait = s.unordered_map_wait) (hq : s'.io_service = s.io_service)
    (h : Inv s) : Inv s' := by
  unfold Inv Allocated at *
  rw [hm, hr, hw, hq]
  exact h

theorem Inv_initial (s : Ext) (h : IsInitial s) : Inv s := by
  obtain ⟨_, _, hr, hw, _, hq⟩ := h
  unfold Inv
  refine ⟨fun k _ => hr k, fun k hk => absurd (hr k) hk, fun k hk => absurd (hw k) hk, ?_, ?_⟩
  · intro k hk
    rw [hq] at hk
    simp [taskIds] at hk
  · rw [hq]
    simp [taskIds]

theorem Inv_getResult (s : Ext) (id cap : Int) (h : Inv s) :
    Inv (getResult_mutexlock s id cap).1 := by
  obtain ⟨h1, h2, h3, h4, h5⟩ := h
  cases hr : s.unordered_map_results id with
  | none =>
    rw [getResult_absent s id cap hr]
    exact ⟨h1, h2, h3, h4, h5⟩
  | some r =>
    have hpres : s.unordered_map_results id ≠ none := by rw [hr]; simp
    by_cases hne : r = []
    · subst hne
      rw [getResult_done s id cap hr]
      have hfree : ∀ k, k ≠ id → Allocated s k →
          Allocated (freeUniqueID_mutexlock (setResult s id none) id) k := by
        rintro k hk ⟨n, hn, rfl⟩
        refine ⟨n, ?_, rfl⟩
        simp only [freeUniqueID_mutexlock, setResult, IdManager.FreeId, List.mem_filter]
        exact ⟨hn, by simpa using hk⟩
      refine ⟨?_, ?_, ?_, h4, h5⟩
      · intro k hk
        have := h1 k hk
        by_cases e : k = id
        · subst e; simp [freeUniqueID_mutexlock, setResult]
        · simpa [freeUniqueID_mutexlock, setResult, Function.update_noteq e] using this
      · intro k hk
        by_cases e : k = id
        · subst e
          simp [freeUniqueID_mutexlock, setResult] at hk
        · have hk' : s.unordered_map_results k ≠ none := by
            simpa [freeUniqueID_mutexlock, setResult, Function.update_noteq e] using hk
          exact hfree k e (h2 k hk')
      · intro k hk
        have hk' : s.unordered_map_wait k ≠ none := hk
        have e : k ≠ id := by
          intro e
          subst e
          exact hpres (h1 k hk')
        exact hfree k e (h3 k hk')
    · rw [getResult_ready s id cap r hr hne]
      refine ⟨?_, ?_, h3, h4, h5⟩
      · intro k hk
        have hk' : s.unordered_map_wait k ≠ none := hk
        have e : k ≠ id := by
          intro e
          subst e
          exact hpres (h1 k hk')
        simpa [setResult, Function.update_noteq e] using h1 k hk'
      · intro k hk
        by_cases e : k = id
        · subst e
          exact h2 k hpres
        · have hk' : s.unordered_map_results k ≠ none := by
            simpa [setResult, Function.update_noteq e] using hk
          exact h2 k hk'

theorem not_allocated_firstFree (s : Ext) : ¬ Allocated s (firstFree s.mgr.used : Int) := by
  rintro ⟨n, hn, e⟩
  have : n = firstFree s.mgr.used := by exact_mod_cast e
  rw [this] at hn
  exact firstFree_not_mem _ hn

theorem Inv_sync (env : Env) (s : Ext) (cap : Int) (proto data : Str) (h : Inv s) :
    Inv (syncCallProtocol env s cap proto data).1 := by
  cases hp : s.unordered_map_protocol proto with
  | none => simpa [syncCallProtocol, hp] using h
  | some itr =>
    simp only [syncCallProtocol, hp]
    split
    · exact h
    · obtain ⟨h1, h2, h3, h4, h5⟩ := h
      have hfresh := not_allocated_firstFree s
      have hmono : ∀ k, Allocated s k →
          Allocated (saveResult_mutexlock (getUniqueID_mutexlock s).2
            (env.callProtocol itr s data) (getUniqueID_mutexlock s).1) k := by
        rintro k ⟨n, hn, rfl⟩
        exact ⟨n, by simp [saveResult_mutexlock, getUniqueID_mutexlock, IdManager.AllocateId, hn], rfl⟩
      have hwait : ∀ k, (saveResult_mutexlock (getUniqueID_mutexlock s).2
            (env.callProtocol itr s data) (getUniqueID_mutexlock s).1).unordered_map_wait k ≠ none →
          k ≠ (firstFree s.mgr.used : Int) ∧ s.unordered_map_wait k ≠ none := by
        intro k hk
        by_cases e : k = (firstFree s.mgr.used : Int)
        · subst e
          simp [saveResult_mutexlock, getUniqueID_mutexlock, IdManager.AllocateId] at hk
        · refine ⟨e, ?_⟩
          simpa [saveResult_mutexlock, getUniqueID_mutexlock, IdManager.AllocateId,
            Function.update_noteq e] using hk
      refine ⟨?_, ?_, ?_, ?_, h5⟩
      · intro k hk
        obtain ⟨e, hk'⟩ := hwait k hk
        simpa [saveResult_mutexlock, getUniqueID_mutexlock, IdManager.AllocateId,
          Function.update_noteq e] using h1 k hk'
      · intro k hk
        by_cases e : k = (firstFree s.mgr.used : Int)
        · subst e
          exact ⟨firstFree s.mgr.used,
            by simp [saveResult_mutexlock, getUniqueID_mutexlock, IdManager.AllocateId], rfl⟩
        · have hk' : s.unordered_map_results k ≠ none := by
            simpa [saveResult_mutexlock, getUniqueID_mutexlock, IdManager.AllocateId,
              Function.update_noteq e] using hk
          exact hmono k (h2 k hk')
      · intro k hk
        exact hmono k (h3 k (hwait k hk).2)
      · intro k hk
        have hk' : s.unordered_map_wait k ≠ none := h4 k hk
        have e : k ≠ (firstFree s.mgr.used : Int) := by
          intro e
          subst e
          exact hfresh (h3 _ hk')
        simpa [saveResult_mutexlock, getUniqueID_mutexlock, IdManager.AllocateId,
          Function.update_noteq e] using hk'

theorem Inv_case_2_found (s : Ext) (proto data : Str) (h : Inv s) :
    Inv (case_2_found s proto data).1 := by
  obtain ⟨h1, h2, h3, h4, h5⟩ := h
  have hfresh := not_allocated_firstFree s
  cases hp : s.unordered_map_protocol proto with
  | none =>
    simp only [case_2_found, getUniqueID_mutexlock, IdManager.AllocateId, hp]
    have hmono : ∀ k, Allocated s k →
        Allocated { s with mgr := { used := firstFree s.mgr.used :: s.mgr.used } } k := by
      rintro k ⟨n, hn, rfl⟩
      exact ⟨n, List.mem_cons_of_mem _ hn, rfl⟩
    exact ⟨h1, fun k hk => hmono k (h2 k hk), fun k hk => hmono k (h3 k hk), h4, h5⟩
  | some itr =>
    simp only [case_2_found, getUniqueID_mutexlock, IdManager.AllocateId, hp]
    have hmono : ∀ k, Allocated s k ∨ k = (firstFree s.mgr.used : Int) →
        Allocated { s with
          mgr := { used := firstFree s.mgr.used :: s.mgr.used }
          unordered_map_wait :=
            Function.update s.unordered_map_wait (firstFree s.mgr.used : Int) (some true)
          io_service := s.io_service ++ [Task.async proto data (firstFree s.mgr.used : Int)] }
          k := by
      rintro k (⟨n, hn, rfl⟩ | rfl)
      · exact ⟨n, List.mem_cons_of_mem _ hn, rfl⟩
      · exact ⟨firstFree s.mgr.used, List.mem_cons_self _ _, rfl⟩
    have hwait : ∀ k, Function.update s.unordered_map_wait (firstFree s.mgr.used : Int)
        (some true) k ≠ none → k = (firstFree s.mgr.used : Int) ∨ s.unordered_map_wait k ≠ none := by
      intro k hk
      by_cases e : k = (firstFree s.mgr.used : Int)
      · exact Or.inl e
      · rw [Function.update_noteq e] at hk
        exact Or.inr hk
    refine ⟨?_, ?_, ?_, ?_, ?_⟩
    · intro k hk
      rcases hwait k hk with e | hk'
      · subst e
        by_contra hres
        exact hfresh (h2 _ hres)
      · exact h1 k hk'
    · intro k hk
      exact hmono k (Or.inl (h2 k hk))
    · intro k hk
      rcases hwait k hk with e | hk'
      · exact hmono k (Or.inr e)
      · exact hmono k (Or.inl (h3 k hk'))
    · intro k hk
      show Function.update s.unordered_map_wait (firstFree s.mgr.used : Int) (some true) k ≠ none
      have hk' : k ∈ taskIds s.io_service ∨ k = (firstFree s.mgr.used : Int) := by
        have : k ∈ taskIds (s.io_service ++ [Task.async proto data (firstFree s.mgr.used : Int)]) :=
          hk
        rw [taskIds_append_async] at this
        simpa using this
      by_cases e : k = (firstFree s.mgr.used : Int)
      · subst e; simp
      · rw [Function.update_noteq e]
        rcases hk' with hk' | hk'
        · exact h4 k hk'
        · exact absurd hk' e
    · show (taskIds (s.io_service ++ [Task.async proto data (firstFree s.mgr.used : Int)])).Nodup
      rw [taskIds_append_async, List.nodup_append]
      refine ⟨h5, List.nodup_singleton _, ?_⟩
      intro k hk hk'
      have e : k = (firstFree s.mgr.used : Int) := by simpa using hk'
      subst e
      exact hfresh (h3 _ (h4 _ hk))

theorem Inv_case_1_found (s : Ext) (proto data : Str) (h : Inv s) :
    Inv (case_1_found s proto data).1 := by
  obtain ⟨h1, h2, h3, h4, h5⟩ := h
  refine ⟨h1, h2, h3, ?_, ?_⟩
  · intro k hk
    have : k ∈ taskIds (s.io_service ++ [Task.oneway proto data]) := hk
    rw [taskIds_append_oneway] at this
    exact h4 k this
  · show (taskIds (s.io_service ++ [Task.oneway proto data])).Nodup
    rw [taskIds_append_oneway]
    exact h5

theorem Inv_case_5 (env : Env) (s : Ext) (cap : Int) (input : Str) (h : Inv s) :
    Inv (case_5 env s cap input).1 := by
  simp only [case_5]
  split
  · exact h
  · exact Inv_getResult s _ cap h

theorem Inv_case_9 (env : Env) (s s' : Ext) (cap : Int) (input : Str) (out : Option Str)
    (hc : case_9 env s cap input = some (s', out)) (h : Inv s) : Inv s' := by
  unfold case_9 at hc
  split at hc
  · split at hc
    · split at hc
      · rw [fst_of_some_eq hc]; exact h
      · split at hc
        · rw [fst_of_some_eq hc]
          exact Inv_frame s _ rfl rfl rfl rfl h
        · rw [fst_of_some_eq hc]; exact h
    · simp only [Option.map_eq_some', Prod.mk.injEq] at hc
      obtain ⟨q, hq, rfl, _⟩ := hc
      obtain ⟨_, hm, hr, hw, hio, _⟩ := connectDatabase_frame env s q.1 cap _ q.2 hq
      exact Inv_frame s _ hm hr hw hio h
    · rw [fst_of_some_eq hc]
      exact Inv_frame s _ (addProtocol_frame _ _ _ _ _ _).2.1 (addProtocol_frame _ _ _ _ _ _).2.2.1
        (addProtocol_frame _ _ _ _ _ _).2.2.2.1 (addProtocol_frame _ _ _ _ _ _).2.2.2.2 h
    · rw [fst_of_some_eq hc]
      exact Inv_frame s _ (addProtocol_frame _ _ _ _ _ _).2.1 (addProtocol_frame _ _ _ _ _ _).2.2.1
        (addProtocol_frame _ _ _ _ _ _).2.2.2.1 (addProtocol_frame _ _ _ _ _ _).2.2.2.2 h
    · rw [fst_of_some_eq hc]; exact h
  · rw [fst_of_some_eq hc]; exact h

theorem Inv_callExtenion (env : Env) (s s' : Ext) (cap : Int) (input : Str) (out : Option Str)
    (hc : callExtenion env s cap input = some (s', out)) (h : Inv s) : Inv s' := by
  unfold callExtenion at hc
  dsimp only at hc
  split at hc
  · rw [fst_of_some_eq hc]; exact h
  · cases hp : env.parse (substr input 0 1) with
    | none =>
      simp only [hp] at hc
      rw [fst_of_some_eq hc]; exact h
    | some async =>
      simp only [hp] at hc
      cases hf : find input ':' 2 with
      | none =>
        simp only [hf] at hc
        repeat' split at hc
        all_goals first
          | exact Inv_case_9 env s s' cap input out hc h
          | (rw [fst_of_some_eq hc]
             first | exact h | exact Inv_case_5 env s cap input h)
      | some found =>
        simp only [hf] at hc
        repeat' split at hc
        all_goals first
          | exact Inv_case_9 env s s' cap input out hc h
          | (rw [fst_of_some_eq hc]
             first
               | exact h
               | exact Inv_case_5 env s cap input h
               | exact Inv_case_2_found s _ _ h
               | exact Inv_case_1_found s _ _ h
               | exact Inv_sync env s cap _ _ h)

theorem onewayCallProtocol_eq (env : Env) (s : Ext) (proto data : Str) :
    onewayCallProtocol env s proto data = s := by
  unfold onewayCallProtocol
  split <;> rfl

theorem Inv_runTask (env : Env) (s s' : Ext) (i : Nat) (hr : runTask env s i = some s')
    (h : Inv s) : Inv s' := by
  obtain ⟨h1, h2, h3, h4, h5⟩ := h
  have hsub := taskIds_eraseIdx_sublist s.io_service i
  unfold runTask at hr
  split at hr
  · exact absurd hr (by simp)
  · simp only [Option.some.injEq] at hr
    subst hr
    rw [onewayCallProtocol_eq]
    exact ⟨h1, h2, h3, fun k hk => h4 k (hsub.subset hk), h5.sublist hsub⟩
  · rename_i p d id hget
    obtain ⟨hin, hout⟩ := taskIds_erase_async s.io_service i p d id hget h5
    unfold asyncCallProtocol at hr
    split at hr
    · exact absurd hr (by simp)
    · simp only [Option.some.injEq] at hr
      subst hr
      have hpend : s.unordered_map_wait id ≠ none := h4 id hin
      refine ⟨?_, ?_, ?_, ?_, h5.sublist hsub⟩
      · intro k hk
        by_cases e : k = id
        · subst e
          simp [saveResult_mutexlock] at hk
        · have hk' : s.unordered_map_wait k ≠ none := by
            simpa [saveResult_mutexlock, Function.update_noteq e] using hk
          simpa [saveResult_mutexlock, Function.update_noteq e] using h1 k hk'
      · intro k hk
        by_cases e : k = id
        · subst e
          exact h3 k hpend
        · have hk' : s.unordered_map_results k ≠ none := by
            simpa [saveResult_mutexlock, Function.update_noteq e] using hk
          exact h2 k hk'
      · intro k hk
        by_cases e : k = id
        · subst e
          exact h3 k hpend
        · have hk' : s.unordered_map_wait k ≠ none := by
            simpa [saveResult_mutexlock, Function.update_noteq e] using hk
          exact h3 k hk'
      · intro k hk
        have hk1 : k ∈ taskIds (s.io_service.eraseIdx i) := hk
        have e : k ≠ id := fun e => hout (e ▸ hk1)
        have := h4 k (hsub.subset hk1)
        simpa [saveResult_mutexlock, Function.update_noteq e] using this

theorem Inv_step (env : Env) (s s' : Ext) (hs : Step env s s') (h : Inv s) : Inv s' := by
  cases hs with
  | call cap input out hc => exact Inv_callExtenion env s s' cap input out hc h
  | worker i hw => exact Inv_runTask env s s' i hw h

theorem Inv_reachable (env : Env) (s : Ext) (hs : Reachable env s) : Inv s := by
  induction hs with
  | init s hi => exact Inv_initial s hi
  | step s s' _ hstep ih => exact Inv_step env s s' hstep ih

/-! ### Ids are freed only when a result entry is erased -/

theorem FreedOnErase_of_subset (s s' : Ext) (h : s.mgr.used ⊆ s'.mgr.used) :
    FreedOnErase s s' :=
  fun _ hn hn' => absurd (h hn) hn'

theorem FreedOnErase_getResult (s : Ext) (id cap : Int) :
    FreedOnErase s (getResult_mutexlock s id cap).1 := by
  cases hr : s.unordered_map_results id with
  | none =>
    rw [getResult_absent s id cap hr]
    exact FreedOnErase_of_subset s s (fun _ h => h)
  | some r =>
    by_cases hne : r = []
    · subst hne
      rw [getResult_done s id cap hr]
      intro n hn hn'
      have e : (n : Int) = id := by
        by_contra e
        apply hn'
        simp only [freeUniqueID_mutexlock, setResult, IdManager.FreeId, List.mem_filter]
        exact ⟨hn, by simpa using e⟩
      rw [e]
      constructor
      · rw [hr]; simp
      · simp [freeUniqueID_mutexlock, setResult]
    · rw [getResult_ready s id cap r hr hne]
      exact FreedOnErase_of_subset s _ (fun _ h => h)

theorem FreedOnErase_sync (env : Env) (s : Ext) (cap : Int) (proto data : Str) :
    FreedOnErase s (syncCallProtocol env s cap proto data).1 := by
  apply FreedOnErase_of_subset
  cases hp : s.unordered_map_protocol proto with
  | none => simp [syncCallProtocol, hp]
  | some itr =>
    simp only [syncCallProtocol, hp]
    split
    · exact fun _ h => h
    · intro n hn
      simp [saveResult_mutexlock, getUniqueID_mutexlock, IdManager.AllocateId, hn]

theorem FreedOnErase_case_2_found (s : Ext) (proto data : Str) :
    FreedOnErase s (case_2_found s proto data).1 := by
  apply FreedOnErase_of_subset
  intro n hn
  cases hp : s.unordered_map_protocol proto with
  | none => simp [case_2_found, getUniqueID_mutexlock, IdManager.AllocateId, hp, hn]
  | some itr => simp [case_2_found, getUniqueID_mutexlock, IdManager.AllocateId, hp, hn]

theorem FreedOnErase_case_5 (env : Env) (s : Ext) (cap : Int) (input : Str) :
    FreedOnErase s (case_5 env s cap input).1 := by
  simp only [case_5]
  split
  · exact FreedOnErase_of_subset s s (fun _ h => h)
  · exact FreedOnErase_getResult s _ cap

theorem case_9_mgr (env : Env) (s s' : Ext) (cap : Int) (input : Str) (out : Option Str)
    (hc : case_9 env s cap input = some (s', out)) : s'.mgr = s.mgr := by
  unfold case_9 at hc
  split at hc
  · split at hc
    · split at hc
      · rw [fst_of_some_eq hc]
      · split at hc
        · rw [fst_of_some_eq hc]
        · rw [fst_of_some_eq hc]
    · simp only [Option.map_eq_some', Prod.mk.injEq] at hc
      obtain ⟨q, hq, rfl, _⟩ := hc
      exact (connectDatabase_frame env s q.1 cap _ q.2 hq).2.1
    · rw [fst_of_some_eq hc]
      exact (addProtocol_frame _ _ _ _ _ _).2.1
    · rw [fst_of_some_eq hc]
      exact (addProtocol_frame _ _ _ _ _ _).2.1
    · rw [fst_of_some_eq hc]
  · rw [fst_of_some_eq hc]

theorem FreedOnErase_callExtenion (env : Env) (s s' : Ext) (cap : Int) (input : Str)
    (out : Option Str) (hc : callExtenion env s cap input = some (s', out)) :
    FreedOnErase s s' := by
  have hself : FreedOnErase s s := FreedOnErase_of_subset s s (fun _ h => h)
  have h9 : case_9 env s cap input = some (s', out) → FreedOnErase s s' := by
    intro h
    apply FreedOnErase_of_subset
    rw [case_9_mgr env s s' cap input out h]
    exact fun _ h => h
  unfold callExtenion at hc
  dsimp only at hc
  split at hc
  · rw [fst_of_some_eq hc]; exact hself
  · cases hp : env.parse (substr input 0 1) with
    | none =>
      simp only [hp] at hc
      rw [fst_of_some_eq hc]; exact hself
    | some async =>
      simp only [hp] at hc
      cases hf : find input ':' 2 with
      | none =>
        simp only [hf] at hc
        repeat' split at hc
        all_goals first
          | exact h9 hc
          | (rw [fst_of_some_eq hc]
             first | exact hself | exact FreedOnErase_case_5 env s cap input)
      | some found =>
        simp only [hf] at hc
        repeat' split at hc
        all_goals first
          | exact h9 hc
          | (rw [fst_of_some_eq hc]
             first
               | exact hself
               | exact FreedOnErase_case_5 env s cap input
               | exact FreedOnErase_case_2_found s _ _
               | exact FreedOnErase_of_subset s _ (fun _ h => h)
               | exact FreedOnErase_sync env s cap _ _)

theorem runTask_mgr (env : Env) (s s' : Ext) (i : Nat) (h : runTask env s i = some s') :
    s'.mgr = s.mgr := by
  unfold runTask at h
  split at h
  · exact absurd h (by simp)
  · simp only [Option.some.injEq] at h
    subst h
    rw [onewayCallProtocol_eq]
  · unfold asyncCallProtocol at h
    split at h
    · exact absurd h (by simp)
    · simp only [Option.some.injEq] at h
      subst h
      rfl

theorem FreedOnErase_step (env : Env) (s s' : Ext) (hs : Step env s s') : FreedOnErase s s' := by
  cases hs with
  | call cap input out hc => exact FreedOnErase_callExtenion env s s' cap input out hc
  | worker i hw =>
    apply FreedOnErase_of_subset
    rw [runTask_mgr env s s' i hw]
    exact fun _ h => h

/-! ## C1: paging round trip -/

/-- C1 (as stated, refuted): for the payload consisting of one NUL byte, stored
under id 0 and polled with `outCap = 80`, the chunks returned before the first
empty response concatenate to `[1,`, which is not the stored `"[1," ++ p ++ "]"`:
`strcpy` stops at the NUL byte and the bytes after it are lost. -/
theorem C1_counterexample :
    (drain 10 (saveResult_mutexlock Demo.initial [NUL] 0) 0 80).map (fun q => q.1.flatten)
        = some "[1,".toList
      ∧ "[1,".toList ≠ "[1,".toList ++ [NUL] ++ "]".toList := by
  decide

/-- C1 (amended): for every payload `p` without a NUL byte, every id and every
`int` capacity `outCap ≥ 10`, after `saveResult_mutexlock(p, id)` the host loop
that polls `id` until the first empty response terminates (any fuel of at least
`len(p) + 5` polls suffices) and the chunks it collected, concatenated in order,
are exactly `"[1," ++ p ++ "]"`. -/
theorem C1_paging_round_trip (s : Ext) (p : Str) (id cap : Int)
    (hp : NUL ∉ p) (h10 : 10 ≤ cap) (hmax : cap ≤ INT_MAX) (fuel : Nat)
    (hfuel : p.length + 5 ≤ fuel) :
    ∃ cs s', drain fuel (saveResult_mutexlock s p id) id cap = some (cs, s')
      ∧ cs.flatten = "[1,".toList ++ p ++ "]".toList := by
  have hw : toSizeT (cap - 9) = (cap - 9).toNat :=
    toSizeT_of_nonneg (by omega) (by unfold INT_MAX at *; omega)
  have hw1 : 1 ≤ toSizeT (cap - 9) := by rw [hw]; omega
  have hnul : NUL ∉ "[1,".toList ++ p ++ "]".toList := by
    intro h
    rw [List.mem_append, List.mem_append] at h
    rcases h with (h | h) | h
    · exact absurd h (by decide)
    · exact hp h
    · exact absurd h (by decide)
  refine drain_ready id cap hw1 fuel _ (saveResult_mutexlock s p id) ?_ hnul ?_
  · simp [saveResult_mutexlock]
  · simp
    omega

/-- C1 (amended), evaluated: payload `hello`, id 0, `outCap = 12`, 20 polls allowed. -/
theorem C1_paging_round_trip_witness :
    NUL ∉ "hello".toList ∧ (10 : Int) ≤ 12 ∧ (12 : Int) ≤ INT_MAX
      ∧ "hello".toList.length + 5 ≤ 20
      ∧ ∃ cs s', drain 20 (saveResult_mutexlock Demo.initial "hello".toList 0) 0 12 = some (cs, s')
          ∧ cs.flatten = "[1,".toList ++ "hello".toList ++ "]".toList :=
  ⟨by decide, by decide, by decide, by decide,
    C1_paging_round_trip Demo.initial "hello".toList 0 12 (by decide) (by decide) (by decide) 20
      (by decide)⟩

/-! ## C2: drain and free -/

/-- C2 (as stated, refuted): the stored result `"[1," ++ [NUL] ++ "]"` has length
`L = 5`; with `outCap = 10` the claim promises `ceil(5 / 1) = 5` non-empty
chunks, but the fourth of the first five responses is empty (the chunk is the
NUL byte itself), and it is not the response that erases the entry. -/
theorem C2_counterexample :
    (polls 5 (saveResult_mutexlock Demo.initial [NUL] 0) 0 10).1
        = ["[".toList, "1".toList, ",".toList, [], "]".toList]
      ∧ (polls 4 (saveResult_mutexlock Demo.initial [NUL] 0) 0 10).2.unordered_map_results 0
        = some "]".toList
      ∧ (5 + (10 - 9) - 1) / (10 - 9) = 5 := by
  decide

/-- C2 (amended): let `id` hold a stored result `r` of length `L ≥ 1` without a
NUL byte and not be marked pending, and let `outCap ≥ 10` be an `int`. With
`w = outCap - 9` and `n = ceil(L / w)`, the first `n` polls return `n` non-empty
chunks (the pieces of `r`, in order); the next poll returns the empty string and
leaves exactly the state in which the entry of `id` is erased and `id` is freed
in the allocator; in that state the result map has no entry for `id`, `id` is
not allocated, and any number of further polls return the empty string and
leave the state as it is. -/
theorem C2_drain_and_free (s : Ext) (id cap : Int) (r : Str)
    (hr : s.unordered_map_results id = some r) (hL : 1 ≤ r.length) (hnul : NUL ∉ r)
    (hwait : s.unordered_map_wait id = none) (h10 : 10 ≤ cap) (hmax : cap ≤ INT_MAX) :
    (polls ((r.length + (cap - 9).toNat - 1) / (cap - 9).toNat) s id cap).1.length
        = (r.length + (cap - 9).toNat - 1) / (cap - 9).toNat
      ∧ (∀ c ∈ (polls ((r.length + (cap - 9).toNat - 1) / (cap - 9).toNat) s id cap).1, c ≠ [])
      ∧ (polls ((r.length + (cap - 9).toNat - 1) / (cap - 9).toNat) s id cap).1.flatten = r
      ∧ getResult_mutexlock
          (polls ((r.length + (cap - 9).toNat - 1) / (cap - 9).toNat) s id cap).2 id cap
        = (freeUniqueID_mutexlock (setResult s id none) id, [])
      ∧ (freeUniqueID_mutexlock (setResult s id none) id).unordered_map_results id = none
      ∧ (∀ k : Nat, (k : Int) = id → k ∉ (freeUniqueID_mutexlock (setResult s id none) id).mgr.used)
      ∧ ∀ m : Nat, polls m (freeUniqueID_mutexlock (setResult s id none) id) id cap
          = (List.replicate m [], freeUniqueID_mutexlock (setResult s id none) id) := by
  have hw : toSizeT (cap - 9) = (cap - 9).toNat :=
    toSizeT_of_nonneg (by omega) (by unfold INT_MAX at *; omega)
  have hw1 : 1 ≤ (cap - 9).toNat := by omega
  generalize hwd : (cap - 9).toNat = w at hw hw1 ⊢
  generalize hn : (r.length + w - 1) / w = n
  have h1 : n * w ≤ r.length + w - 1 := by rw [← hn]; exact Nat.div_mul_le_self _ _
  have h2 : r.length + w - 1 < w * (n + 1) := by
    rw [← hn]; exact Nat.lt_mul_div_succ _ (by omega)
  have h2' : r.length ≤ n * w := by
    rw [Nat.mul_succ, Nat.mul_comm w n] at h2; omega
  have hp := polls_ready id cap n r s hr hnul (by rw [hw]; omega)
  rw [hw] at hp
  have hdrop : r.drop (n * w) = [] := List.drop_eq_nil_of_le h2'
  rw [hdrop] at hp
  have hres : (freeUniqueID_mutexlock (setResult s id none) id).unordered_map_results id = none := by
    simp [freeUniqueID_mutexlock, setResult]
  refine ⟨?_, ?_, ?_, ?_, hres, ?_, ?_⟩
  · rw [hp]; exact chunks_length w n r
  · rw [hp]; exact chunks_ne_nil w hw1 n r (by omega)
  · rw [hp, chunks_flatten]; exact List.take_of_length_le h2'
  · rw [hp, getResult_done _ id cap (setResult_results_same _ _ _), setResult_setResult]
  · intro k hk hmem
    simp [freeUniqueID_mutexlock, setResult, IdManager.FreeId, List.mem_filter] at hmem
    exact hmem.2 hk
  · exact polls_absent id cap _ hres (by simpa [freeUniqueID_mutexlock, setResult] using hwait)

/-- C2 (amended), evaluated: the stored result of payload `hello` (9 bytes), id 0,
`outCap = 12`, hence 3 chunks of 3 bytes. -/
theorem C2_drain_and_free_witness :
    (saveResult_mutexlock Demo.initial "hello".toList 0).unordered_map_results 0
        = some "[1,hello]".toList
      ∧ 1 ≤ "[1,hello]".toList.length ∧ NUL ∉ "[1,hello]".toList
      ∧ (saveResult_mutexlock Demo.initial "hello".toList 0).unordered_map_wait 0 = none
      ∧ (10 : Int) ≤ 12 ∧ (12 : Int) ≤ INT_MAX
      ∧ (polls 3 (saveResult_mutexlock Demo.initial "hello".toList 0) 0 12).1
          = ["[1,".toList, "hel".toList, "lo]".toList]
      ∧ (getResult_mutexlock
          (polls 3 (saveResult_mutexlock Demo.initial "hello".toList 0) 0 12).2 0 12).2 = [] :=
  have h := C2_drain_and_free (saveResult_mutexlock Demo.initial "hello".toList 0) 0 12
    "[1,hello]".toList (by decide) (by decide) (by decide) (by decide) (by decide) (by decide)
  ⟨by decide, by decide, by decide, by decide, by decide, by decide, by decide,
    congrArg Prod.snd h.2.2.2.1⟩

/-! ## C3: chunk size bound -/

/-- C3 (as stated, refuted): with `outCap = 8` the `int` value `output_size-9` is
`-1`, which `substr` receives as `2^64 - 1`, so the poll of the Ready entry
`[1,abc]` writes all 7 bytes, more than `outCap - 9 = -1`. -/
theorem C3_counterexample :
    (getResult_mutexlock (saveResult_mutexlock Demo.initial "abc".toList 0) 0 8).2
        = "[1,abc]".toList
      ∧ ¬ (((getResult_mutexlock (saveResult_mutexlock Demo.initial "abc".toList 0) 0 8).2.length
            : Int) ≤ 8 - 9) := by
  decide

/-- C3 (amended): for every state, every id with a result entry and every `int`
capacity `outCap ≥ 9`, the chunk that `getResult_mutexlock(id, outCap)` writes
has at most `outCap - 9` bytes. -/
theorem C3_chunk_size_bound (s : Ext) (id cap : Int) (r : Str)
    (hr : s.unordered_map_results id = some r) (h9 : 9 ≤ cap) (hmax : cap ≤ INT_MAX) :
    ((getResult_mutexlock s id cap).2.length : Int) ≤ cap - 9 := by
  have hw : toSizeT (cap - 9) = (cap - 9).toNat :=
    toSizeT_of_nonneg (by omega) (by unfold INT_MAX at *; omega)
  by_cases hne : r = []
  · subst hne
    rw [getResult_done s id cap hr]
    simp
    omega
  · rw [getResult_ready s id cap r hr hne, hw]
    have h1 := strcpy_length_le (r.take (cap - 9).toNat)
    have h2 : (r.take (cap - 9).toNat).length ≤ (cap - 9).toNat := List.length_take_le _ _
    simp only
    omega

/-- C3 (amended), evaluated: the entry `[1,abc]` polled with `outCap = 12`. -/
theorem C3_chunk_size_bound_witness :
    (saveResult_mutexlock Demo.initial "abc".toList 0).unordered_map_results 0
        = some "[1,abc]".toList
      ∧ (9 : Int) ≤ 12 ∧ (12 : Int) ≤ INT_MAX
      ∧ ((getResult_mutexlock (saveResult_mutexlock Demo.initial "abc".toList 0) 0 12).2.length
          : Int) ≤ 12 - 9 :=
  ⟨by decide, by decide, by decide,
    C3_chunk_size_bound (saveResult_mutexlock Demo.initial "abc".toList 0) 0 12 "[1,abc]".toList
      (by decide) (by decide) (by decide)⟩

/-! ## C4: poll of an id without a result entry -/

/-- C4: for every id that has no entry in the result map, `getResult_mutexlock`
writes the empty string when the id is not marked pending and `[3]` when it is;
in both cases the state (result map, pending set, id allocator and all other
members) is returned unchanged. -/
theorem C4_poll_without_entry (s : Ext) (id cap : Int)
    (hr : s.unordered_map_results id = none) :
    (s.unordered_map_wait id = none → getResult_mutexlock s id cap = (s, []))
      ∧ (s.unordered_map_wait id ≠ none → getResult_mutexlock s id cap = (s, "[3]".toList)) := by
  rw [getResult_absent s id cap hr]
  constructor
  · intro h; simp [h]
  · intro h; simp [h, MSG_WAIT]

/-- C4, evaluated: id 0 pending and id 1 unknown in the state after `2:m:hi`. -/
theorem C4_poll_without_entry_witness :
    (case_2_found Demo.withM "m".toList "hi".toList).1.unordered_map_results 0 = none
      ∧ (case_2_found Demo.withM "m".toList "hi".toList).1.unordered_map_wait 0 ≠ none
      ∧ getResult_mutexlock (case_2_found Demo.withM "m".toList "hi".toList).1 0 80
          = ((case_2_found Demo.withM "m".toList "hi".toList).1, "[3]".toList) :=
  ⟨by decide, by decide,
    (C4_poll_without_entry (case_2_found Demo.withM "m".toList "hi".toList).1 0 80
      (by decide)).2 (by decide)⟩

/-! ## C5: synchronous call -/

/-- C5 (as stated, refuted): protocol `m` answers `0:m:x` with the one-byte
payload `p = [NUL]`, which fits `outCap = 80`, yet the response is `[1, ` and
not `"[1, " ++ p ++ "]"`: `strcpy` stops at the NUL byte. -/
theorem C5_counterexample :
    Demo.withM.unordered_map_protocol "m".toList = some ⟨.MISC, []⟩
      ∧ Demo.envNul.callProtocol ⟨.MISC, []⟩ Demo.withM "x".toList = [NUL]
      ∧ (callExtenion Demo.envNul Demo.withM 80 "0:m:x".toList).map (fun q => q.2)
          = some (some "[1, ".toList)
      ∧ "[1, ".toList ≠ "[1, ".toList ++ [NUL] ++ "]".toList := by
  decide

/-- C5 (amended): synchronous call `0:<proto>:<data>` (`<proto>` colon-free, the
mode byte parsing as 0) with an `int` capacity `outCap ≥ 9`. If `<proto>` is not
registered the response is `[0,"Error Unknown Protocol"]` and the state is
unchanged. Otherwise, with `p` the handler's result for `<data>`: if
`len(p) ≤ outCap - 9` the state is unchanged and the response is
`"[1, " ++ p ++ "]"` cut at its first NUL byte, hence exactly
`"[1, " ++ p ++ "]"` when `p` has no NUL byte; if `len(p) > outCap - 9` the
response is `[2,"<id>"]` with `<id>` the decimal text of the id the allocator
hands out, which was not allocated before and is allocated now, and the
resulting state differs from the old one only in the allocator and in the
result map holding `"[1," ++ p ++ "]"` under that id. -/
theorem C5_sync_call (env : Env) (s : Ext) (cap : Int) (proto data : Str)
    (hparse : env.parse ['0'] = some 0) (hproto : ':' ∉ proto)
    (h9 : 9 ≤ cap) (hmax : cap ≤ INT_MAX) :
    (s.unordered_map_protocol proto = none →
        callExtenion env s cap ('0' :: ':' :: (proto ++ ':' :: data))
          = some (s, some MSG_UNKNOWN_PROTOCOL))
      ∧ (∀ h, s.unordered_map_protocol proto = some h →
          ((env.callProtocol h s data).length : Int) ≤ cap - 9 →
          callExtenion env s cap ('0' :: ':' :: (proto ++ ':' :: data))
              = some (s, some (strcpy ("[1, ".toList ++ env.callProtocol h s data ++ "]".toList)))
            ∧ (NUL ∉ env.callProtocol h s data →
                callExtenion env s cap ('0' :: ':' :: (proto ++ ':' :: data))
                  = some (s, some ("[1, ".toList ++ env.callProtocol h s data ++ "]".toList))))
      ∧ (∀ h, s.unordered_map_protocol proto = some h →
          cap - 9 < ((env.callProtocol h s data).length : Int) →
          callExtenion env s cap ('0' :: ':' :: (proto ++ ':' :: data))
              = some ({ s with
                        mgr := { used := firstFree s.mgr.used :: s.mgr.used }
                        unordered_map_results :=
                          Function.update s.unordered_map_results (firstFree s.mgr.used : Int)
                            (some ("[1,".toList ++ env.callProtocol h s data ++ "]".toList))
                        unordered_map_wait :=
                          Function.update s.unordered_map_wait (firstFree s.mgr.used : Int) none },
                      some ("[2,\"".toList ++ format (firstFree s.mgr.used : Int) ++ "\"]".toList))
            ∧ firstFree s.mgr.used ∉ s.mgr.used) := by
  have hw : toSizeT (cap - 9) = (cap - 9).toNat :=
    toSizeT_of_nonneg (by omega) (by unfold INT_MAX at *; omega)
  have hcall := callExtenion_separator env s cap ('0' :: ':' :: (proto ++ ':' :: data)) proto data 0
    (by simp) (by simpa using hparse) (Or.inl rfl) (by simp) hproto
  rw [hcall]
  simp only [found_branch, case_0_found, syncCallProtocol]
  refine ⟨?_, ?_, ?_⟩
  · intro hnone
    simp [hnone, strcpy_MSG_UNKNOWN_PROTOCOL]
  · intro h hreg hfit
    have hfit' : (env.callProtocol h s data).length ≤ toSizeT (cap - 9) := by rw [hw]; omega
    refine ⟨by simp [hreg, hfit'], ?_⟩
    intro hnul
    have hn : NUL ∉ "[1, ".toList ++ env.callProtocol h s data ++ "]".toList := by
      intro hm
      rw [List.mem_append, List.mem_append] at hm
      rcases hm with (hm | hm) | hm
      · exact absurd hm (by decide)
      · exact hnul hm
      · exact absurd hm (by decide)
    have hn' := strcpy_of_not_mem hn
    simp at hn'
    simp [hreg, hfit', hn']
  · intro h hreg hbig
    have hbig' : ¬ (env.callProtocol h s data).length ≤ toSizeT (cap - 9) := by rw [hw]; omega
    refine ⟨?_, firstFree_not_mem _⟩
    have ht := ticket_natCast_strcpy (firstFree s.mgr.used)
    simp [ticket] at ht
    simp [hreg, hbig', getUniqueID_mutexlock, IdManager.AllocateId, saveResult_mutexlock, ticket, ht]

/-- C5 (amended), evaluated: `0:m:hello` with the echo protocol `m` and `outCap = 80`. -/
theorem C5_sync_call_witness :
    Demo.env.parse ['0'] = some 0 ∧ ':' ∉ "m".toList ∧ (9 : Int) ≤ 80 ∧ (80 : Int) ≤ INT_MAX
      ∧ callExtenion Demo.env Demo.withM 80 ('0' :: ':' :: ("m".toList ++ ':' :: "hello".toList))
          = some (Demo.withM, some ("[1, ".toList ++ "hello".toList ++ "]".toList)) :=
  ⟨by decide, by decide, by decide, by decide,
    ((C5_sync_call Demo.env Demo.withM 80 "m".toList "hello".toList (by decide) (by decide)
      (by decide) (by decide)).2.1 ⟨.MISC, []⟩ (by decide) (by decide)).2 (by decide)⟩

/-! ## C6: asynchronous call with ticket -/

/-- C6: mode 2 on a registered protocol. In a state whose result entries all
belong to allocated ids, for `<proto>` colon-free and registered (and the
library parser reading the mode bytes `2`, `5` and the decimal text of the new
id back), the call `2:<proto>:<data>` answers `[2,"<id>"]` for the id allocated
by this call; the new state differs from the old one exactly in that this id is
allocated, it is marked pending, and one task `(<proto>, <data>, id)` is
appended to the queue; it has no result entry for the id; and a poll `5:<id>`
in that state (for any `outCap`) answers `[3]` and leaves the state unchanged. -/
theorem C6_async_ticket (env : Env) (s : Ext) (cap cap5 : Int) (proto data : Str) (h : Protocol)
    (hp2 : env.parse ['2'] = some 2) (hp5 : env.parse ['5'] = some 5)
    (hfmt : env.parse (format (firstFree s.mgr.used : Int)) = some (firstFree s.mgr.used : Int))
    (hproto : ':' ∉ proto) (hreg : s.unordered_map_protocol proto = some h)
    (hinv : ∀ n : Nat, n ∉ s.mgr.used → s.unordered_map_results (n : Int) = none) :
    callExtenion env s cap ('2' :: ':' :: (proto ++ ':' :: data))
        = some ({ s with
                  mgr := { used := firstFree s.mgr.used :: s.mgr.used }
                  unordered_map_wait :=
                    Function.update s.unordered_map_wait (firstFree s.mgr.used : Int) (some true)
                  io_service :=
                    s.io_service ++ [Task.async proto data (firstFree s.mgr.used : Int)] },
                some ("[2,\"".toList ++ format (firstFree s.mgr.used : Int) ++ "\"]".toList))
      ∧ s.unordered_map_results (firstFree s.mgr.used : Int) = none
      ∧ callExtenion env
          { s with
            mgr := { used := firstFree s.mgr.used :: s.mgr.used }
            unordered_map_wait :=
              Function.update s.unordered_map_wait (firstFree s.mgr.used : Int) (some true)
            io_service := s.io_service ++ [Task.async proto data (firstFree s.mgr.used : Int)] }
          cap5 ('5' :: ':' :: format (firstFree s.mgr.used : Int))
        = some ({ s with
                  mgr := { used := firstFree s.mgr.used :: s.mgr.used }
                  unordered_map_wait :=
                    Function.update s.unordered_map_wait (firstFree s.mgr.used : Int) (some true)
                  io_service :=
                    s.io_service ++ [Task.async proto data (firstFree s.mgr.used : Int)] },
                some "[3]".toList) := by
  have hfresh := hinv _ (firstFree_not_mem s.mgr.used)
  refine ⟨?_, hfresh, ?_⟩
  · rw [callExtenion_separator env s cap ('2' :: ':' :: (proto ++ ':' :: data)) proto data 2
      (by simp) (by simpa using hp2) (Or.inr (Or.inr rfl)) (by simp) hproto]
    have ht := ticket_natCast_strcpy (firstFree s.mgr.used)
    simp [ticket] at ht
    simp [found_branch, case_2_found, getUniqueID_mutexlock, IdManager.AllocateId, hreg, ticket, ht]
  · have hne := format_ne_nil (firstFree s.mgr.used : Int)
    have hl : ¬ ('5' :: ':' :: format (firstFree s.mgr.used : Int)).length ≤ 2 := by
      have : 0 < (format (firstFree s.mgr.used : Int)).length := List.length_pos.mpr hne
      simp only [List.length_cons]
      omega
    have hp : env.parse (substr ('5' :: ':' :: format (firstFree s.mgr.used : Int)) 0 1)
        = some 5 := by simpa [substr] using hp5
    simp only [callExtenion, hl, hp, if_false]
    simp only [case_5, substrFrom, List.drop_succ_cons, List.drop_zero, hfmt]
    rw [getResult_absent _ _ _ (by simpa using hfresh)]
    simp [MSG_WAIT]

/-- C6, evaluated: `2:m:hi` in the state where only protocol `m` is registered. -/
theorem C6_async_ticket_witness :
    callExtenion Demo.env Demo.withM 80 ('2' :: ':' :: ("m".toList ++ ':' :: "hi".toList))
        = some ({ Demo.withM with
                  mgr := { used := firstFree Demo.withM.mgr.used :: Demo.withM.mgr.used }
                  unordered_map_wait :=
                    Function.update Demo.withM.unordered_map_wait
                      (firstFree Demo.withM.mgr.used : Int) (some true)
                  io_service :=
                    Demo.withM.io_service
                      ++ [Task.async "m".toList "hi".toList (firstFree Demo.withM.mgr.used : Int)] },
                some ("[2,\"".toList ++ format (firstFree Demo.withM.mgr.used : Int)
                  ++ "\"]".toList))
      ∧ format (firstFree Demo.withM.mgr.used : Int) = "0".toList :=
  ⟨(C6_async_ticket Demo.env Demo.withM 80 80 "m".toList "hi".toList ⟨.MISC, []⟩ (by decide)
      (by decide) (by decide) (by decide) (by decide) (fun _ _ => rfl)).1, by decide⟩

/-! ## C7: asynchronous call with ticket on a missing handler -/

/-- C7 (what the code does): for every input `2:<proto>:<data>` with `<proto>`
colon-free and not registered, the response is `[0,"Error Unknown Protocol"]`,
no task is enqueued and the pending set and result map are unchanged, but the
id taken by `getUniqueID_mutexlock` before the lookup stays allocated: the
allocator of the resulting state holds one id more than before, and no branch
calls `freeUniqueID_mutexlock`. -/
theorem C7_unknown_protocol_keeps_id (env : Env) (s : Ext) (cap : Int) (proto data : Str)
    (hp2 : env.parse ['2'] = some 2) (hproto : ':' ∉ proto)
    (hreg : s.unordered_map_protocol proto = none) :
    callExtenion env s cap ('2' :: ':' :: (proto ++ ':' :: data))
        = some ({ s with mgr := { used := firstFree s.mgr.used :: s.mgr.used } },
                some MSG_UNKNOWN_PROTOCOL)
      ∧ firstFree s.mgr.used ∉ s.mgr.used
      ∧ firstFree s.mgr.used :: s.mgr.used ≠ s.mgr.used := by
  refine ⟨?_, firstFree_not_mem _, ?_⟩
  · rw [callExtenion_separator env s cap ('2' :: ':' :: (proto ++ ':' :: data)) proto data 2
      (by simp) (by simpa using hp2) (Or.inr (Or.inr rfl)) (by simp) hproto]
    simp [found_branch, case_2_found, getUniqueID_mutexlock, IdManager.AllocateId, hreg,
      strcpy_MSG_UNKNOWN_PROTOCOL]
  · intro e
    have := congrArg List.length e
    simp at this

/-- C7, evaluated at `2:NOSUCH:x` in the initial state: the error is returned and
id 0 is left allocated, although no request holds it. -/
theorem C7_unknown_protocol_keeps_id_witness :
    (callExtenion Demo.env Demo.initial 80 ('2' :: ':' :: ("NOSUCH".toList ++ ':' :: "x".toList))
        = some ({ Demo.initial with
                  mgr := { used := firstFree Demo.initial.mgr.used :: Demo.initial.mgr.used } },
                some MSG_UNKNOWN_PROTOCOL))
      ∧ Demo.initial.mgr.used = []
      ∧ firstFree Demo.initial.mgr.used :: Demo.initial.mgr.used = [0] :=
  ⟨(C7_unknown_protocol_keeps_id Demo.env Demo.initial 80 "NOSUCH".toList "x".toList (by decide)
      (by decide) (by decide)).1, by decide, by decide⟩

/-! ## C8: envelope of ticketed results -/

/-- C8 (as stated, refuted): `2:m:hi` with the echo protocol `m` answers
`[2,"0"]`; after the worker ran the queued task, the poll `5:0` with
`outCap = 80` returns `[1,hi]`, which is not the `[1, hi]` of the claim, while
the synchronous `0:m:hi` returns `[1, hi]`. -/
theorem C8_counterexample :
    (callExtenion Demo.env Demo.withM 80 "2:m:hi".toList).map (fun q => (q.1.io_service, q.2))
        = some ([Task.async "m".toList "hi".toList 0], some "[2,\"0\"]".toList)
      ∧ (((callExtenion Demo.env Demo.withM 80 "2:m:hi".toList).bind fun q =>
            asyncCallProtocol Demo.env q.1 "m".toList "hi".toList 0).bind fun s1 =>
            callExtenion Demo.env s1 80 "5:0".toList).map (fun q => q.2)
          = some (some "[1,hi]".toList)
      ∧ "[1,hi]".toList ≠ "[1, hi]".toList
      ∧ (callExtenion Demo.env Demo.withM 80 "0:m:hi".toList).map (fun q => q.2)
          = some (some "[1, hi]".toList) := by
  decide

/-- C8 (amended): when the worker for a ticketed request `(proto, data, id)`
runs on a registered protocol and produces the payload `p` without a NUL byte,
it stores `"[1," ++ p ++ "]"`; if that string fits in one chunk for the poll's
`int` capacity (`len(p) + 4 ≤ outCap - 9`), the next poll `5:<id>` returns
exactly `"[1," ++ p ++ "]"`, with no space after the comma, and leaves the entry
empty. These are not the bytes `"[1, " ++ p ++ "]"` that sync mode 0 returns
inline for the same payload. -/
theorem C8_ticketed_envelope (env : Env) (s : Ext) (cap : Int) (proto data : Str) (id : Int)
    (h : Protocol) (hp5 : env.parse ['5'] = some 5) (hfmt : env.parse (format id) = some id)
    (hreg : s.unordered_map_protocol proto = some h)
    (hnul : NUL ∉ env.callProtocol h s data)
    (hfit : ((env.callProtocol h s data).length : Int) + 4 ≤ cap - 9) (hmax : cap ≤ INT_MAX) :
    asyncCallProtocol env s proto data id
        = some (saveResult_mutexlock s (env.callProtocol h s data) id)
      ∧ callExtenion env (saveResult_mutexlock s (env.callProtocol h s data) id) cap
          ('5' :: ':' :: format id)
        = some (setResult (saveResult_mutexlock s (env.callProtocol h s data) id) id (some []),
                some ("[1,".toList ++ env.callProtocol h s data ++ "]".toList))
      ∧ "[1,".toList ++ env.callProtocol h s data ++ "]".toList
          ≠ "[1, ".toList ++ env.callProtocol h s data ++ "]".toList := by
  have hw : toSizeT (cap - 9) = (cap - 9).toNat :=
    toSizeT_of_nonneg (by omega) (by unfold INT_MAX at *; omega)
  refine ⟨by simp [asyncCallProtocol, hreg], ?_, ?_⟩
  · have hne := format_ne_nil id
    have hl : ¬ ('5' :: ':' :: format id).length ≤ 2 := by
      have : 0 < (format id).length := List.length_pos.mpr hne
      simp only [List.length_cons]
      omega
    have hp : env.parse (substr ('5' :: ':' :: format id) 0 1) = some 5 := by
      simpa [substr] using hp5
    simp only [callExtenion, hl, hp, if_false]
    simp only [case_5, substrFrom, List.drop_succ_cons, List.drop_zero, hfmt]
    have hstored : (saveResult_mutexlock s (env.callProtocol h s data) id).unordered_map_results id
        = some ("[1,".toList ++ env.callProtocol h s data ++ "]".toList) := by
      simp [saveResult_mutexlock]
    have hlen : ("[1,".toList ++ env.callProtocol h s data ++ "]".toList).length
        = (env.callProtocol h s data).length + 4 := by
      simp
    have hnul' : NUL ∉ "[1,".toList ++ env.callProtocol h s data ++ "]".toList := by
      intro hm
      rw [List.mem_append, List.mem_append] at hm
      rcases hm with (hm | hm) | hm
      · exact absurd hm (by decide)
      · exact hnul hm
      · exact absurd hm (by decide)
    rw [getResult_ready _ id cap _ hstored (by intro e; rw [e] at hlen; simp at hlen), hw]
    have hle : ("[1,".toList ++ env.callProtocol h s data ++ "]".toList).length ≤ (cap - 9).toNat := by
      rw [hlen]; omega
    rw [List.take_of_length_le hle, List.drop_eq_nil_of_le hle, strcpy_of_not_mem hnul']
    simp
  · intro e
    have := congrArg List.length e
    simp at this

/-- C8 (amended), evaluated: the task `(m, hi, 0)` with the echo protocol and a
poll with `outCap = 80`. -/
theorem C8_ticketed_envelope_witness :
    asyncCallProtocol Demo.env Demo.withM "m".toList "hi".toList 0
        = some (saveResult_mutexlock Demo.withM
            (Demo.env.callProtocol ⟨.MISC, []⟩ Demo.withM "hi".toList) 0)
      ∧ "[1,".toList ++ Demo.env.callProtocol ⟨.MISC, []⟩ Demo.withM "hi".toList ++ "]".toList
          = "[1,hi]".toList :=
  ⟨(C8_ticketed_envelope Demo.env Demo.withM 80 "m".toList "hi".toList 0 ⟨.MISC, []⟩ (by decide)
      (by decide) (by decide) (by decide) (by decide) (by decide)).1, by decide⟩

/-! ## C9: the response fits the buffer -/

/-- C9 (as stated, refuted): with `outCap = 47` the one-byte input `5` is answered
with the 47-byte literal `[0,"Error Invalid Message, (Message to short)"]`, one
byte more than `outCap - 1`; no branch of `callExtenion` compares a fixed
response with `output_size`. -/
theorem C9_counterexample :
    (callExtenion Demo.env Demo.initial 47 "5".toList).map (fun q => q.2)
        = some (some "[0,\"Error Invalid Message, (Message to short)\"]".toList)
      ∧ "[0,\"Error Invalid Message, (Message to short)\"]".toList.length = 47
      ∧ ¬ (("[0,\"Error Invalid Message, (Message to short)\"]".toList.length : Int) ≤ 47 - 1) := by
  decide

/-- C9 (amended): for every input string, every `int` capacity `outCap ≥ 48` and
every state whose next id is an `int`, whenever `callExtenion` writes a response
into the output buffer, that NUL-terminated response has at most `outCap - 1`
bytes before the terminator (fixed error strings, version string, ticket,
inline envelope, poll chunks, database and registration replies). -/
theorem C9_response_fits (env : Env) (s : Ext) (cap : Int) (input : Str)
    (h48 : 48 ≤ cap) (hmax : cap ≤ INT_MAX) (hid : (firstFree s.mgr.used : Int) ≤ INT_MAX)
    (s' : Ext) (r : Str) (h : callExtenion env s cap input = some (s', some r)) :
    (r.length : Int) ≤ cap - 1 := by
  have e1 : (strcpy MSG_TOO_SHORT).length = 47 := by decide
  have e2 : (strcpy MSG_INVALID_MESSAGE).length = 27 := by decide
  have e3 : (strcpy MSG_INVALID_FORMAT).length = 26 := by decide
  have e4 : (strcpy MSG_OK).length = 3 := by decide
  unfold callExtenion at h
  dsimp only at h
  split at h
  · simp only [Option.some.injEq, Prod.mk.injEq] at h
    obtain ⟨_, rfl⟩ := h
    omega
  · cases hp : env.parse (substr input 0 1) with
    | none =>
      simp only [hp, Option.some.injEq, Prod.mk.injEq] at h
      obtain ⟨_, rfl⟩ := h
      omega
    | some async =>
      simp only [hp] at h
      cases hf : find input ':' 2 with
      | none =>
        simp only [hf] at h
        split at h
        · simp only [Option.some.injEq, Prod.mk.injEq] at h
          obtain ⟨_, rfl⟩ := h
          omega
        · split at h
          · simp only [case_5] at h
            cases hq : env.parse (substrFrom input 2) with
            | none =>
              simp only [hq, Option.some.injEq, Prod.mk.injEq] at h
              obtain ⟨_, rfl⟩ := h
              omega
            | some uid =>
              simp only [hq, Option.some.injEq, Prod.mk.injEq] at h
              obtain ⟨_, rfl⟩ := h
              have := getResult_output s uid cap (by omega) hmax
              omega
          · split at h
            · simp only [Option.some.injEq, Prod.mk.injEq] at h
              obtain ⟨_, rfl⟩ := h
              omega
            · split at h
              · simp only [Option.some.injEq, Prod.mk.injEq] at h
                obtain ⟨_, rfl⟩ := h
                omega
              · split at h
                · exact case_9_output env s s' cap input r h48 h
                · simp only [Option.some.injEq, Prod.mk.injEq] at h
                  obtain ⟨_, rfl⟩ := h
                  omega
      | some found =>
        simp only [hf] at h
        split at h
        · simp only [Option.some.injEq] at h
          exact case_2_found_output s cap _ _ r h48 hid (by rw [h])
        · split at h
          · simp only [case_5] at h
            cases hq : env.parse (substrFrom input 2) with
            | none =>
              simp only [hq, Option.some.injEq, Prod.mk.injEq] at h
              obtain ⟨_, rfl⟩ := h
              omega
            | some uid =>
              simp only [hq, Option.some.injEq, Prod.mk.injEq] at h
              obtain ⟨_, rfl⟩ := h
              have := getResult_output s uid cap (by omega) hmax
              omega
          · split at h
            · simp only [case_1_found, Option.some.injEq, Prod.mk.injEq] at h
              obtain ⟨_, rfl⟩ := h
              omega
            · split at h
              · simp only [case_0_found, Option.some.injEq, Prod.mk.injEq] at h
                obtain ⟨_, rfl⟩ := h
                exact syncCallProtocol_output env s cap _ _ h48 hmax hid
              · split at h
                · exact case_9_output env s s' cap input r h48 h
                · simp only [Option.some.injEq, Prod.mk.injEq] at h
                  obtain ⟨_, rfl⟩ := h
                  omega

/-- C9 (amended), evaluated: `0:m:hello` with `outCap = 80` is answered with the
10 bytes `[1, hello]`. -/
theorem C9_response_fits_witness :
    (48 : Int) ≤ 80 ∧ (80 : Int) ≤ INT_MAX ∧ (firstFree Demo.withM.mgr.used : Int) ≤ INT_MAX
      ∧ callExtenion Demo.env Demo.withM 80 "0:m:hello".toList
          = some (Demo.withM, some "[1, hello]".toList)
      ∧ ("[1, hello]".toList.length : Int) ≤ 80 - 1 :=
  ⟨by decide, by decide, by decide, by rfl,
    C9_response_fits Demo.env Demo.withM 80 "0:m:hello".toList (by decide) (by decide) (by decide)
      Demo.withM "[1, hello]".toList (by rfl)⟩

/-! ## C10: splitting rule for modes 0, 1 and 2 -/

/-- C10: for every mode `m ∈ {0, 1, 2}` and every input of length `> 2` whose
first byte parses as `m`: if no index `≥ 2` holds `':'`, the response is
`[0,"Error Invalid Format"]` and the state is unchanged (no id allocated, no
task enqueued); otherwise, with `k` the first index `≥ 2` holding `':'`, the
call does what mode `m` does with protocol `input[2..k)` and data
`input[k+1..]`. In particular, for every mode byte `c` parsing as `m`, every
colon-free name `n` and every data `d` (colons allowed), the input
`c ++ ":" ++ n ++ ":" ++ d` is routed with protocol `n` and data `d`. -/
theorem C10_splitting_rule (env : Env) (s : Ext) (cap : Int) (m : Int)
    (hm : m = 0 ∨ m = 1 ∨ m = 2) :
    (∀ input : Str, 2 < input.length → env.parse (input.take 1) = some m →
        ((∀ i, 2 ≤ i → input[i]? ≠ some ':') →
            callExtenion env s cap input = some (s, some "[0,\"Error Invalid Format\"]".toList))
          ∧ (∀ k, 2 ≤ k → input[k]? = some ':' → (∀ i, 2 ≤ i → i < k → input[i]? ≠ some ':') →
              callExtenion env s cap input
                = some (found_branch env s cap m ((input.drop 2).take (k - 2)) (input.drop (k + 1)))))
      ∧ (∀ (c : Char) (n d : Str), env.parse [c] = some m → ':' ∉ n →
          callExtenion env s cap (c :: ':' :: (n ++ ':' :: d))
            = some (found_branch env s cap m n d)) := by
  refine ⟨?_, ?_⟩
  · intro input hlen hparse
    refine ⟨?_, ?_⟩
    · intro hno
      have hsep : ':' ∉ input.drop 2 := by
        intro hmem
        obtain ⟨i, hi⟩ := List.mem_iff_getElem?.mp hmem
        rw [List.getElem?_drop] at hi
        exact hno (2 + i) (by omega) hi
      exact callExtenion_no_separator env s cap input m hlen hparse hm hsep
    · intro k hk hcolon hfirst
      have hklt : k < input.length := by
        by_contra hge
        rw [List.getElem?_eq_none (by omega)] at hcolon
        exact absurd hcolon (by simp)
      have hget : input[k] = ':' := by
        rw [List.getElem?_eq_getElem hklt] at hcolon
        exact Option.some.inj hcolon
      have hdropk : input.drop k = ':' :: input.drop (k + 1) := by
        rw [List.drop_eq_getElem_cons hklt, hget]
      have hdrop : input.drop 2 = (input.drop 2).take (k - 2) ++ ':' :: input.drop (k + 1) := by
        have h1 : (input.drop 2).drop (k - 2) = input.drop k := by
          rw [List.drop_drop]
          congr 1
          omega
        rw [← hdropk, ← h1, List.take_append_drop]
      have ha : ':' ∉ (input.drop 2).take (k - 2) := by
        intro hmem
        obtain ⟨i, hi⟩ := List.mem_iff_getElem?.mp hmem
        rw [List.getElem?_take] at hi
        split at hi
        · rw [List.getElem?_drop] at hi
          exact hfirst (2 + i) (by omega) (by omega) hi
        · exact absurd hi (by simp)
      exact callExtenion_separator env s cap input _ _ m hlen hparse hm hdrop ha
  · intro c n d hparse hn
    exact callExtenion_separator env s cap (c :: ':' :: (n ++ ':' :: d)) n d m (by simp)
      (by simpa using hparse) hm (by simp) hn

/-- C10, evaluated: `2:m:a:b` is routed to protocol `m` with data `a:b`, and
`2:mab` is rejected without touching the state. -/
theorem C10_splitting_rule_witness :
    callExtenion Demo.env Demo.withM 80 ('2' :: ':' :: ("m".toList ++ ':' :: "a:b".toList))
        = some (found_branch Demo.env Demo.withM 80 2 "m".toList "a:b".toList)
      ∧ callExtenion Demo.env Demo.withM 80 "2:mab".toList
        = some (Demo.withM, some "[0,\"Error Invalid Format\"]".toList) :=
  ⟨(C10_splitting_rule Demo.env Demo.withM 80 2 (Or.inr (Or.inr rfl))).2 '2' "m".toList
      "a:b".toList (by decide) (by decide),
    ((C10_splitting_rule Demo.env Demo.withM 80 2 (Or.inr (Or.inr rfl))).1 "2:mab".toList
      (by decide) (by decide)).1 (by
        intro i hi
        have h5 : "2:mab".toList.length = 5 := by decide
        by_cases hlt : i < 5
        · interval_cases i <;> decide
        · rw [List.getElem?_eq_none (by omega)]
          simp)⟩

/-! ## C11: unknown mode -/

/-- C11: for every input of length `> 2`, if its first byte does not parse as a
number (the parser throws), or parses as a number other than 0, 1, 2, 5, 9, the
response is exactly `[0,"Error Invalid Message"]` and the state (registry, result
map, pending set, id allocator, task queue, admin latch and all other members) is
unchanged. With a parser that reads a single byte as its decimal digit and
throws on any other byte, this covers every input whose first byte is not one
of `'0'`, `'1'`, `'2'`, `'5'`, `'9'`. -/
theorem C11_unknown_mode (env : Env) (s : Ext) (cap : Int) (input : Str)
    (hlen : 2 < input.length) :
    (env.parse (input.take 1) = none →
        callExtenion env s cap input = some (s, some "[0,\"Error Invalid Message\"]".toList))
      ∧ (∀ m : Int, env.parse (input.take 1) = some m →
          m ≠ 0 → m ≠ 1 → m ≠ 2 → m ≠ 5 → m ≠ 9 →
          callExtenion env s cap input = some (s, some "[0,\"Error Invalid Message\"]".toList))
      ∧ ((∀ c : Char, env.parse [c] = digitValue c) →
          ∀ (c : Char) (rest : Str), input = c :: rest →
            c ≠ '0' → c ≠ '1' → c ≠ '2' → c ≠ '5' → c ≠ '9' →
            callExtenion env s cap input
              = some (s, some "[0,\"Error Invalid Message\"]".toList)) := by
  refine ⟨?_, ?_, ?_⟩
  · intro hp
    exact callExtenion_parse_none env s cap input hlen hp
  · intro m hp h0 h1 h2 h5 h9
    exact callExtenion_other_mode env s cap input m hlen hp h0 h1 h2 h5 h9
  · intro hdigit c rest hin c0 c1 c2 c5 c9
    have htake : input.take 1 = [c] := by rw [hin]; rfl
    cases hv : digitValue c with
    | none =>
      exact callExtenion_parse_none env s cap input hlen (by rw [htake, hdigit, hv])
    | some m =>
      have hne : ¬ (m = 0 ∨ m = 1 ∨ m = 2 ∨ m = 5 ∨ m = 9) := by
        intro hm
        rcases digitValue_mode c m hv hm with h | h | h | h | h
        · exact c0 h
        · exact c1 h
        · exact c2 h
        · exact c5 h
        · exact c9 h
      exact callExtenion_other_mode env s cap input m hlen (by rw [htake, hdigit, hv])
        (fun e => hne (Or.inl e)) (fun e => hne (Or.inr (Or.inl e)))
        (fun e => hne (Or.inr (Or.inr (Or.inl e))))
        (fun e => hne (Or.inr (Or.inr (Or.inr (Or.inl e)))))
        (fun e => hne (Or.inr (Or.inr (Or.inr (Or.inr e)))))

/-- C11, evaluated: `3:m:x` (another digit) and `x:m:x` (not a number) with the
protocol `m` registered. -/
theorem C11_unknown_mode_witness :
    2 < "3:m:x".toList.length
      ∧ callExtenion Demo.env Demo.withM 80 "3:m:x".toList
          = some (Demo.withM, some "[0,\"Error Invalid Message\"]".toList)
      ∧ callExtenion Demo.env Demo.withM 80 "x:m:x".toList
          = some (Demo.withM, some "[0,\"Error Invalid Message\"]".toList) :=
  ⟨by decide,
    (C11_unknown_mode Demo.env Demo.withM 80 "3:m:x".toList (by decide)).2.2 Demo_parse_single
      '3' ":m:x".toList rfl (by decide) (by decide) (by decide) (by decide) (by decide),
    (C11_unknown_mode Demo.env Demo.withM 80 "x:m:x".toList (by decide)).1 (by decide)⟩

/-! ## C12: the admin latch -/

/-- C12: in every state with the latch set, (1) the latch is still set after any
sequence of host calls and worker steps, and (2) every mode-9 call (any input of
length `> 2` beginning with `'9'`, the byte parsing as 9) writes nothing to the
output buffer and returns the state unchanged: protocol registry, database pool
and connection data, result store and the latch itself. -/
theorem C12_admin_latch (env : Env) (s : Ext) (hlock : s.extDB_lock = true) :
    (∀ s' : Ext, Relation.ReflTransGen (Step env) s s' → s'.extDB_lock = true)
      ∧ (env.parse ['9'] = some 9 →
          ∀ (cap : Int) (rest : Str), 2 ≤ rest.length →
            callExtenion env s cap ('9' :: rest) = some (s, none)) := by
  refine ⟨?_, ?_⟩
  · intro s' hs
    induction hs with
    | refl => exact hlock
    | tail _ hstep ih => exact step_lock env _ _ hstep ih
  · intro hp cap rest hrest
    rw [callExtenion_mode_9 env s cap ('9' :: rest) (by simp only [List.length_cons]; omega)
      (by simpa using hp)]
    simp [case_9, hlock]

/-- C12, evaluated: after `9:LOCK`, the call `9:ADD:MISC:m2` writes nothing and
changes nothing. -/
theorem C12_admin_latch_witness :
    callExtenion Demo.env Demo.withM 80 "9:LOCK".toList
        = some ({ Demo.withM with extDB_lock := true }, none)
      ∧ callExtenion Demo.env { Demo.withM with extDB_lock := true } 80 ('9' :: ":ADD:MISC:m2".toList)
        = some ({ Demo.withM with extDB_lock := true }, none) :=
  ⟨by rfl,
    (C12_admin_latch Demo.env { Demo.withM with extDB_lock := true } rfl).2 (by decide) 80
      ":ADD:MISC:m2".toList (by decide)⟩

/-! ## C13: admin commands are keyed by token count -/

/-- C13: with the latch open, a mode-9 input (length `> 2`, first byte parsing
as 9) is routed by the number of its tokens alone: three tokens call
`connectDatabase(tokens[2])`, four call `addProtocol(tokens[2], tokens[3], "")`,
five call `addProtocol(tokens[2], tokens[3], tokens[4])`, whatever `tokens[0]`
and `tokens[1]` are, so two such inputs whose tokens agree from index 2 on give
the same response and the same resulting state; every token count outside
`{2, 3, 4, 5}` gives exactly `[0,"Error Invalid Format"]` with the state
unchanged. -/
theorem C13_admin_token_count (env : Env) (s : Ext) (cap : Int) (input : Str)
    (hopen : s.extDB_lock = false) (hlen : 2 < input.length)
    (hparse : env.parse (input.take 1) = some 9) :
    (∀ t0 t1 t2 : Str, env.tokenize input = [t0, t1, t2] →
        callExtenion env s cap input
          = (connectDatabase env s cap t2).map fun r => (r.1, some r.2))
      ∧ (∀ t0 t1 t2 t3 : Str, env.tokenize input = [t0, t1, t2, t3] →
          callExtenion env s cap input
            = some ((addProtocol env s cap t2 t3 []).1, some (addProtocol env s cap t2 t3 []).2))
      ∧ (∀ t0 t1 t2 t3 t4 : Str, env.tokenize input = [t0, t1, t2, t3, t4] →
          callExtenion env s cap input
            = some ((addProtocol env s cap t2 t3 t4).1, some (addProtocol env s cap t2 t3 t4).2))
      ∧ (∀ (input2 : Str) (t0 t1 u0 u1 : Str) (tl : List Str),
          2 < input2.length → env.parse (input2.take 1) = some 9 →
          env.tokenize input = t0 :: t1 :: tl → env.tokenize input2 = u0 :: u1 :: tl →
          (tl.length = 1 ∨ tl.length = 2 ∨ tl.length = 3) →
          callExtenion env s cap input = callExtenion env s cap input2)
      ∧ ((env.tokenize input).length ≠ 2 → (env.tokenize input).length ≠ 3 →
          (env.tokenize input).length ≠ 4 → (env.tokenize input).length ≠ 5 →
          callExtenion env s cap input = some (s, some "[0,\"Error Invalid Format\"]".toList)) := by
  have h9 := callExtenion_mode_9 env s cap input hlen hparse
  refine ⟨?_, ?_, ?_, ?_, ?_⟩
  · intro t0 t1 t2 ht
    rw [h9]
    simp [case_9, hopen, ht]
  · intro t0 t1 t2 t3 ht
    rw [h9]
    simp [case_9, hopen, ht]
  · intro t0 t1 t2 t3 t4 ht
    rw [h9]
    simp [case_9, hopen, ht]
  · intro input2 t0 t1 u0 u1 tl hlen2 hparse2 ht hu htl
    rw [h9, callExtenion_mode_9 env s cap input2 hlen2 hparse2]
    rcases htl with h | h | h
    · obtain ⟨a, rfl⟩ := List.length_eq_one.mp h
      simp [case_9, hopen, ht, hu]
    · obtain ⟨a, b, rfl⟩ := List.length_eq_two.mp h
      simp [case_9, hopen, ht, hu]
    · obtain ⟨a, b, c, rfl⟩ := List.length_eq_three.mp h
      simp [case_9, hopen, ht, hu]
  · intro n2 n3 n4 n5
    rw [h9]
    unfold case_9
    simp only [hopen, Bool.not_false, if_true]
    split
    · rename_i heq; rw [heq] at n2; exact absurd rfl n2
    · rename_i heq; rw [heq] at n3; exact absurd rfl n3
    · rename_i heq; rw [heq] at n4; exact absurd rfl n4
    · rename_i heq; rw [heq] at n5; exact absurd rfl n5
    · rw [strcpy_MSG_INVALID_FORMAT]; rfl

/-- C13, evaluated: `9:ADD:MISC:m` and `9:XYZ:MISC:m` register `m` alike, and
`9:ADD:MISC:m:a:b` (six tokens) is rejected. -/
theorem C13_admin_token_count_witness :
    Demo.initial.extDB_lock = false ∧ 2 < "9:ADD:MISC:m".toList.length
      ∧ Demo.env.parse ("9:ADD:MISC:m".toList.take 1) = some 9
      ∧ callExtenion Demo.env Demo.initial 80 "9:ADD:MISC:m".toList
          = callExtenion Demo.env Demo.initial 80 "9:XYZ:MISC:m".toList
      ∧ callExtenion Demo.env Demo.initial 80 "9:ADD:MISC:m:a:b".toList
          = some (Demo.initial, some "[0,\"Error Invalid Format\"]".toList) :=
  ⟨by decide, by decide, by decide,
    (C13_admin_token_count Demo.env Demo.initial 80 "9:ADD:MISC:m".toList (by decide) (by decide)
      (by decide)).2.2.2.1 "9:XYZ:MISC:m".toList "9".toList "ADD".toList "9".toList "XYZ".toList
      ["MISC".toList, "m".toList] (by decide) (by decide) (by decide) (by decide)
      (Or.inr (Or.inl rfl)),
    (C13_admin_token_count Demo.env Demo.initial 80 "9:ADD:MISC:m:a:b".toList (by decide)
      (by decide) (by decide)).2.2.2.2 (by decide) (by decide) (by decide) (by decide)⟩

/-! ## C14: addProtocol status and registration -/

/-- C14: for every state, kind string, name and init data, `addProtocol` writes
`[1]` exactly when the kind string names (case-insensitively) one of the eleven
protocol classes and `init(this, init_data)` of the new object returns true; then
the resulting state is the old one with `name` bound to the new object, whatever
`name` was bound to before (so a second registration of the same name leaves the
one binding to the latest object), and every other name keeps its binding. When
the kind string names none of the eleven classes it writes
`[0,"Error Unknown Protocol"]` and the state is unchanged. -/
theorem C14_addProtocol_status (env : Env) (s : Ext) (cap : Int)
    (protocol protocol_name init_data : Str) :
    ((addProtocol env s cap protocol protocol_name init_data).2 = "[1]".toList ↔
        ∃ k, iequals protocol (kindName k) = true
          ∧ env.init k (bindProtocol s protocol_name k init_data) init_data = true)
      ∧ (∀ k, iequals protocol (kindName k) = true →
          env.init k (bindProtocol s protocol_name k init_data) init_data = true →
          addProtocol env s cap protocol protocol_name init_data
              = (bindProtocol s protocol_name k init_data, "[1]".toList)
            ∧ (bindProtocol s protocol_name k init_data).unordered_map_protocol protocol_name
                = some ⟨k, init_data⟩
            ∧ ∀ n, n ≠ protocol_name →
                (bindProtocol s protocol_name k init_data).unordered_map_protocol n
                  = s.unordered_map_protocol n)
      ∧ ((∀ k, iequals protocol (kindName k) = false) →
          addProtocol env s cap protocol protocol_name init_data
            = (s, "[0,\"Error Unknown Protocol\"]".toList)) := by
  have hok : strcpy MSG_OK = "[1]".toList := by decide
  have hfail : strcpy MSG_FAILED_TO_LOAD ≠ "[1]".toList := by decide
  have hunk : strcpy MSG_UNKNOWN_PROTOCOL ≠ "[1]".toList := by decide
  refine ⟨?_, ?_, ?_⟩
  · constructor
    · intro h
      cases hk : kindOf protocol with
      | none =>
        simp only [addProtocol, hk] at h
        exact absurd h hunk
      | some k =>
        refine ⟨k, iequals_of_kindOf protocol k hk, ?_⟩
        cases hi : env.init k (bindProtocol s protocol_name k init_data) init_data with
        | true => rfl
        | false =>
          simp only [bindProtocol] at hi
          simp only [addProtocol, hk, hi, Bool.not_false, if_true] at h
          exact absurd h hfail
    · rintro ⟨k, hk, hi⟩
      simp only [bindProtocol] at hi
      simp only [addProtocol, kindOf_of_iequals protocol k hk, hi, Bool.not_true]
      exact hok
  · intro k hk hi
    refine ⟨?_, by simp [bindProtocol], ?_⟩
    · simp only [bindProtocol] at hi
      simp only [addProtocol, kindOf_of_iequals protocol k hk, hi, Bool.not_true, bindProtocol]
      simp [hok]
    · intro n hn
      simp [bindProtocol, Function.update_noteq hn]
  · intro hnone
    have hk := (kindOf_eq_none_iff protocol).mpr hnone
    simp only [addProtocol, hk, strcpy_MSG_UNKNOWN_PROTOCOL]
    rfl

/-- C14, evaluated: `m` registered as MISC with data `a`, then as `log` (any case)
with data `b`, ends bound to the LOG object; an unknown kind changes nothing. -/
theorem C14_addProtocol_status_witness :
    addProtocol Demo.env (bindProtocol Demo.initial "m".toList .MISC "a".toList) 80
        "log".toList "m".toList "b".toList
        = (bindProtocol (bindProtocol Demo.initial "m".toList .MISC "a".toList) "m".toList .LOG
            "b".toList, "[1]".toList)
      ∧ (bindProtocol (bindProtocol Demo.initial "m".toList .MISC "a".toList) "m".toList .LOG
            "b".toList).unordered_map_protocol "m".toList = some ⟨.LOG, "b".toList⟩
      ∧ addProtocol Demo.env Demo.initial 80 "NOSUCH".toList "m".toList []
        = (Demo.initial, "[0,\"Error Unknown Protocol\"]".toList) :=
  have h := (C14_addProtocol_status Demo.env
    (bindProtocol Demo.initial "m".toList .MISC "a".toList) 80 "log".toList "m".toList
    "b".toList).2.1 .LOG (by decide) rfl
  ⟨h.1, h.2.1,
    (C14_addProtocol_status Demo.env Demo.initial 80 "NOSUCH".toList "m".toList []).2.2
      (fun k => by cases k <;> decide)⟩

/-! ## C15: addProtocol init failure -/

/-- C15: for every state (also one in which `name` is bound to a working
object), every kind string naming one of the eleven classes, every name and
init data such that `init` of the new object returns false, `addProtocol` writes
`[0,"Failed to Load Protocol"]` and returns the old state with `name` unbound:
the failed object is not retained, `name` is bound to no object after the call
(a prior binding of `name` is gone as well), and all other names keep their
bindings. -/
theorem C15_addProtocol_init_failure (env : Env) (s : Ext) (cap : Int)
    (protocol protocol_name init_data : Str) (k : ProtocolKind)
    (hk : iequals protocol (kindName k) = true)
    (hinit : env.init k (bindProtocol s protocol_name k init_data) init_data = false) :
    addProtocol env s cap protocol protocol_name init_data
        = (unbindProtocol s protocol_name, "[0,\"Failed to Load Protocol\"]".toList)
      ∧ (unbindProtocol s protocol_name).unordered_map_protocol protocol_name = none
      ∧ ∀ n, n ≠ protocol_name →
          (unbindProtocol s protocol_name).unordered_map_protocol n = s.unordered_map_protocol n := by
  refine ⟨?_, by simp [unbindProtocol], ?_⟩
  · simp only [bindProtocol] at hinit
    simp only [addProtocol, kindOf_of_iequals protocol k hk, hinit, Bool.not_false, if_true,
      unbindProtocol, Function.update_idem, strcpy_MSG_FAILED_TO_LOAD]
    rfl
  · intro n hn
    simp [unbindProtocol, Function.update_noteq hn]

/-- C15, evaluated: with `m` bound to a working MISC object, a failing
registration of `m` leaves `m` unbound. -/
theorem C15_addProtocol_init_failure_witness :
    Demo.withM.unordered_map_protocol "m".toList = some ⟨.MISC, []⟩
      ∧ iequals "MISC".toList (kindName .MISC) = true
      ∧ Demo.envFail.init .MISC (bindProtocol Demo.withM "m".toList .MISC []) [] = false
      ∧ addProtocol Demo.envFail Demo.withM 80 "MISC".toList "m".toList []
          = (unbindProtocol Demo.withM "m".toList, "[0,\"Failed to Load Protocol\"]".toList)
      ∧ (unbindProtocol Demo.withM "m".toList).unordered_map_protocol "m".toList = none :=
  have h := C15_addProtocol_init_failure Demo.envFail Demo.withM 80 "MISC".toList "m".toList []
    .MISC (by decide) rfl
  ⟨by decide, by decide, rfl, h.1, h.2.1⟩

/-! ## C16: result-store invariant -/

/-- C16: in every state reachable from an initial state (no id allocated, empty
result map, pending set and queue) by host calls of `callExtenion` (any input,
so all modes) and worker steps that run one posted job each, (1) no id is at the
same time marked pending and present in the result map, (2) every id that is
pending or present in the result map is currently allocated, and (3) whenever a
further step frees an id, that id had a result entry before the step and has
none after it. The allocator never hands out an allocated id: it returns the
smallest free one. -/
theorem C16_result_store_invariant (env : Env) (s : Ext) (hs : Reachable env s) :
    (∀ id : Int, ¬ (s.unordered_map_wait id ≠ none ∧ s.unordered_map_results id ≠ none))
      ∧ (∀ id : Int, s.unordered_map_wait id ≠ none ∨ s.unordered_map_results id ≠ none →
          ∃ n ∈ s.mgr.used, (n : Int) = id)
      ∧ (∀ s' : Ext, Step env s s' →
          ∀ n ∈ s.mgr.used, n ∉ s'.mgr.used →
            s.unordered_map_results (n : Int) ≠ none ∧ s'.unordered_map_results (n : Int) = none) := by
  obtain ⟨h1, h2, h3, _, _⟩ := Inv_reachable env s hs
  refine ⟨?_, ?_, ?_⟩
  · rintro id ⟨hw, hr⟩
    exact hr (h1 id hw)
  · rintro id (hw | hr)
    · exact h3 id hw
    · exact h2 id hr
  · intro s' hstep
    exact FreedOnErase_step env s s' hstep

/-- C16, evaluated: the state after `9:ADD:MISC:m` and `2:m:hi` from the initial
state is reachable; there id 0 is pending, has no result entry and is allocated. -/
theorem C16_result_store_invariant_witness :
    Reachable Demo.env (case_2_found Demo.withM "m".toList "hi".toList).1
      ∧ (case_2_found Demo.withM "m".toList "hi".toList).1.unordered_map_wait 0 ≠ none
      ∧ ∃ n ∈ (case_2_found Demo.withM "m".toList "hi".toList).1.mgr.used, (n : Int) = 0 :=
  have hr : Reachable Demo.env (case_2_found Demo.withM "m".toList "hi".toList).1 :=
    Reachable.step _ _
      (Reachable.step _ _
        (Reachable.init Demo.initial ⟨rfl, rfl, fun _ => rfl, fun _ => rfl, fun _ => rfl, rfl⟩)
        (Step.call Demo.initial Demo.withM 80 "9:ADD:MISC:m".toList (some "[1]".toList) (by rfl)))
      (Step.call Demo.withM _ 80 "2:m:hi".toList (some "[2,\"0\"]".toList) (by rfl))
  ⟨hr, by decide,
    (C16_result_store_invariant Demo.env _ hr).2.1 0 (Or.inl (by decide))⟩

end ExtDB
